import Mathlib

/-!
# Verification of the SPL compiler and policy-execution engine

A shallow embedding of the core of the `secure-policy-language` repository:

* `backend/execution/policy_engine.py` — the runtime `PolicyEngine`
  (`check_access`, `_matches_resource`, `_matches_action`,
  `_evaluate_condition`);
* `backend/compiler/semantic_analyzer.py` — `SemanticAnalyzer` with its five
  phases, `PolicyConflict` and its risk scores;
* `backend/compiler/code_generator.py` — `CodeGenerator` in its `json` target
  format;
* `backend/compiler/ast_nodes.py` — the AST node shapes these walk over.

Python dictionaries are embedded as association lists (Python dicts preserve
insertion order; the analyzer and the engine only insert fresh keys or
overwrite whole entries, both of which are modelled explicitly).  Machine
integers are `Int` (no arithmetic in the embedded fragment overflows).
Fallible evaluation is `Option`-valued; a `try/except` that falls back to a
default becomes `Option.getD`.
-/

namespace SPL

/-- A Python runtime value as it occurs in the policy engine's evaluation
context: JSON scalars, nested dicts (request headers), and the `datetime.date`
object stored under `time.date`.  Floats do not occur in the embedded
fragment. -/
inductive PyVal where
  | int (n : Int)
  | str (s : String)
  | bool (b : Bool)
  | dict (entries : List (String × PyVal))
  | date (y m d : Nat)
deriving Repr

/-- Structural equality on embedded Python values (used for `dict == dict`,
which Python compares by content). -/
def pyValBeq : PyVal → PyVal → Bool
  | .int a, .int b => a == b
  | .str a, .str b => a == b
  | .bool a, .bool b => a == b
  | .dict a, .dict b => pyDictBeq a b
  | .date a b c, .date x y z => a == x && b == y && c == z
  | _, _ => false
where
  /-- Pairwise equality of dict entry lists. -/
  pyDictBeq : List (String × PyVal) → List (String × PyVal) → Bool
  | [], [] => true
  | (k, v) :: rest, (k', v') :: rest' =>
      k == k' && pyValBeq v v' && pyDictBeq rest rest'
  | _, _ => false

instance : BEq PyVal := ⟨pyValBeq⟩

/-- Python truthiness (`bool(v)`): zero, the empty string and the empty dict
are falsy; a `datetime.date` is always truthy. -/
def pyTruthy : PyVal → Bool
  | .int n => n != 0
  | .str s => !s.isEmpty
  | .bool b => b
  | .dict entries => !entries.isEmpty
  | .date _ _ _ => true

/-- Python `==` on the embedded values.  `bool` is a subtype of `int` in
Python, so `True == 1`; values of unrelated types compare unequal without
raising. -/
def pyEq : PyVal → PyVal → Bool
  | .int a, .int b => a == b
  | .int a, .bool b => a == (if b then 1 else 0)
  | .bool a, .int b => (if a then (1 : Int) else 0) == b
  | .bool a, .bool b => a == b
  | .str a, .str b => a == b
  | .dict a, .dict b => pyValBeq.pyDictBeq a b
  | .date a b c, .date x y z => a == x && b == y && c == z
  | _, _ => false

/-- Lexicographic `<` on character lists, mirroring Python's string order. -/
def charsLt : List Char → List Char → Bool
  | [], [] => false
  | [], _ :: _ => true
  | _ :: _, [] => false
  | c :: cs, d :: ds => c < d || (c == d && charsLt cs ds)

/-- Lexicographic `<` on strings, mirroring Python's string ordering. -/
def strLt (a b : String) : Bool :=
  charsLt a.data b.data

/-- Python `<` on the embedded values.  Numeric values (`int`/`bool`) and
strings are ordered; comparing values of unrelated types raises `TypeError`,
embedded as `none`. -/
def pyLt : PyVal → PyVal → Option Bool
  | .int a, .int b => some (a < b)
  | .int a, .bool b => some (a < (if b then 1 else 0))
  | .bool a, .int b => some ((if a then (1 : Int) else 0) < b)
  | .bool a, .bool b => some (!a && b)
  | .str a, .str b => some (strLt a b)
  | .date a b c, .date x y z =>
      some (a < x || (a == x && (b < y || (b == y && c < z))))
  | _, _ => none

/-- `s.startswith(pre)`. -/
def startsWithChars : List Char → List Char → Bool
  | _, [] => true
  | [], _ :: _ => false
  | h :: hs, n :: ns => h == n && startsWithChars hs ns

/-- `needle in haystack` on characters. -/
def containsChars : List Char → List Char → Bool
  | [], ndl => ndl.isEmpty
  | h :: t, ndl => startsWithChars (h :: t) ndl || containsChars t ndl

/-- Python `needle in haystack` on strings. -/
def strContains (hay ndl : String) : Bool :=
  containsChars hay.data ndl.data

/-- Python `str.lower()` (the embedded fragment is ASCII). -/
def strToLower (s : String) : String :=
  String.mk (s.data.map Char.toLower)

/-- Python's binary comparison operators, built from `pyEq` and `pyLt` the way
`eval` resolves them; an unsupported operator or a `TypeError` is `none`. -/
def pyCompare (op : String) (a b : PyVal) : Option Bool :=
  if op == "==" then some (pyEq a b)
  else if op == "!=" then some (!pyEq a b)
  else if op == "<" then pyLt a b
  else if op == ">" then pyLt b a
  else if op == "<=" then (pyLt b a).map (!·)
  else if op == ">=" then (pyLt a b).map (!·)
  else none

end SPL

namespace SPL

/-! ## `PolicyEngine._evaluate_condition`

The source evaluates a condition string by (1) splitting it at quote
characters into text and quoted-string parts, (2) substituting every
`\w+.\w+` attribute reference in the text parts — an unknown object or field
becomes the literal text `False` —, (3) joining the parts back together,
(4) rewriting the SPL keywords (` true`, ` false`, ` AND `, ` OR `, `NOT `)
to their Python spellings, and (5) handing the string to `eval` with empty
builtins, catching every exception as `False`.

The embedding keeps the string in segments: a substituted attribute becomes a
value segment standing for the source's `context['obj']['attr']` text.  That
text contains no space and therefore no occurrence of any of the rewrite
patterns, and no rewrite pattern contains a quote character or overlaps the
inserted `False` text, so rewriting the segments separately agrees with
rewriting the joined string.  Step (5) is a small interpreter of the Python
expression fragment the pipeline can produce (boolean/comparison operators,
literals, names); any failure — `SyntaxError`, `NameError`, `TypeError` — is
`none` and yields `False`, like the source's `except`.  (A token that spans a
substitution boundary, such as the `False.b` arising from `unknown.a.b`, is a
parse failure here but a runtime failure in CPython; both give `False`.) -/

/-- The evaluation context: Python's nested `context` dict, five attribute
namespaces each mapping field names to values. -/
abbrev EvalContext := List (String × List (String × PyVal))

/-- One part of the quote-split condition string: plain text, or a quoted
string literal (quotes included), as produced by the splitting loop. -/
inductive Part where
  | text (chars : List Char)
  | quoted (chars : List Char)
deriving Repr

/-- The quote-splitting loop of `_evaluate_condition`: walks the characters
tracking `in_quote`/`quote_char`/`current` and appends finished parts.  A
trailing unterminated quote is flushed as a quoted part, like the source's
final `if current`. -/
def quoteSplitGo : List Char → Option Char → List Char → List Part → List Part
  | [], inQuote, current, parts =>
      if current.isEmpty then parts
      else parts ++ [if inQuote.isSome then Part.quoted current else Part.text current]
  | c :: rest, inQuote, current, parts =>
      if c == '"' || c == '\'' then
        match inQuote with
        | none =>
            let parts' := if current.isEmpty then parts else parts ++ [Part.text current]
            quoteSplitGo rest (some c) [c] parts'
        | some q =>
            if c == q then
              quoteSplitGo rest none [] (parts ++ [Part.quoted (current ++ [c])])
            else
              quoteSplitGo rest inQuote (current ++ [c]) parts
      else
        quoteSplitGo rest inQuote (current ++ [c]) parts

/-- Split a condition string at quote characters (`parts` in the source). -/
def quoteSplit (cs : List Char) : List Part :=
  quoteSplitGo cs none [] []

/-- A segment of the reassembled evaluation string: literal text, or the
substituted value of a resolved attribute reference (the source's
`context['obj']['attr']`). -/
inductive Seg where
  | txt (chars : List Char)
  | val (v : PyVal)
deriving Repr

/-- A regex `\w` character (the embedded fragment is ASCII). -/
def isWordChar (c : Char) : Bool :=
  c.isAlphanum || c == '_'

/-- `replace_attr` of the source: resolve `obj.field` in the context; an
unknown object or field becomes the literal text `False`. -/
def replaceAttr (context : EvalContext) (obj field : List Char) : Seg :=
  match List.lookup (String.mk obj) context with
  | none => Seg.txt "False".data
  | some fields =>
      match List.lookup (String.mk field) fields with
      | none => Seg.txt "False".data
      | some v => Seg.val v

/-- `re.sub(r'(\w+)\.(\w+)', replace_attr, text)`: scan the text left to
right; a maximal word run followed by a dot and a nonempty word run is a
match (the regex engine cannot start a match inside a word run whose
following character is not a usable dot).  `acc` is the text emitted since
the last match.  Every step consumes at least one character, so the fuel
`cs.length + 1` supplied by `attrSub` never runs out; recursing on it keeps
the definition structural (hence kernel-reducible). -/
def attrSubGo (context : EvalContext) : Nat → List Char → List Char → List Seg
  | 0, cs, acc => [Seg.txt (acc ++ cs)]
  | _ + 1, [], acc => if acc.isEmpty then [] else [Seg.txt acc]
  | fuel + 1, c :: rest, acc =>
      if isWordChar c then
        let w1 := (c :: rest).takeWhile isWordChar
        match (c :: rest).dropWhile isWordChar with
        | '.' :: rest2 =>
            let w2 := rest2.takeWhile isWordChar
            let rest3 := rest2.dropWhile isWordChar
            if w2.isEmpty then
              attrSubGo context fuel rest3 (acc ++ w1 ++ ['.'])
            else
              (if acc.isEmpty then [] else [Seg.txt acc]) ++
                [replaceAttr context w1 w2] ++ attrSubGo context fuel rest3 []
        | after1 =>
            attrSubGo context fuel after1 (acc ++ w1)
      else
        attrSubGo context fuel rest (acc ++ [c])

/-- Attribute substitution over one text part. -/
def attrSub (context : EvalContext) (cs : List Char) : List Seg :=
  attrSubGo context (cs.length + 1) cs []

/-- Segments of one part: text parts get attribute substitution, quoted
parts are kept as-is. -/
def partSegs (context : EvalContext) : Part → List Seg
  | Part.text cs => attrSub context cs
  | Part.quoted cs => [Seg.txt cs]

/-- The joined, attribute-substituted evaluation string, in segments. -/
def substitutedSegs (context : EvalContext) (cs : List Char) : List Seg :=
  (quoteSplit cs).flatMap (partSegs context)

/-- `str.replace(pat, rep)` on characters: leftmost, non-overlapping,
scanning resumes after each replacement.  The fuel `s.length + 1` supplied
by `charsReplace` suffices as long as the pattern is nonempty (every
pattern used here is). -/
def charsReplaceGo : Nat → List Char → List Char → List Char → List Char
  | 0, s, _, _ => s
  | _ + 1, [], _, _ => []
  | fuel + 1, c :: rest, pat, rep =>
      if startsWithChars (c :: rest) pat then
        rep ++ charsReplaceGo fuel ((c :: rest).drop pat.length) pat rep
      else
        c :: charsReplaceGo fuel rest pat rep

/-- `str.replace` on character lists. -/
def charsReplace (s pat rep : List Char) : List Char :=
  charsReplaceGo (s.length + 1) s pat rep

/-- The keyword rewrites applied to the joined string,
in the source's order (its `'True'→'True'`, `'False'→'False'`, `'=='→'=='`
and `'!='→'!='` replaces are identities and omitted). -/
def keywordReplace (s : List Char) : List Char :=
  charsReplace
    (charsReplace
      (charsReplace
        (charsReplace
          (charsReplace s " true".data " True".data)
          " false".data " False".data)
        " AND ".data " and ".data)
      " OR ".data " or ".data)
    "NOT ".data "not ".data

/-- Apply the keyword rewrites to every text segment (no rewrite pattern can
span a segment boundary, see the section comment). -/
def replacedSegs (context : EvalContext) (cs : List Char) : List Seg :=
  (substitutedSegs context cs).map fun s =>
    match s with
    | Seg.txt t => Seg.txt (keywordReplace t)
    | v => v

end SPL

namespace SPL

/-- A token of the evaluated Python expression string.  `val` is the value a
substituted `context['obj']['attr']` reference denotes; `err` marks a
character no token of the fragment can start with (a `SyntaxError` under
`eval`). -/
inductive Tok where
  | name (s : String)
  | strLit (s : String)
  | intLit (n : Int)
  | val (v : PyVal)
  | lparen
  | rparen
  | op (s : String)
  | err
deriving Repr, BEq

/-- Integer value of a digit run. -/
def digitsToInt (ds : List Char) : Int :=
  (ds.foldl (fun a c => a * 10 + (c.toNat - '0'.toNat)) 0 : Nat)

/-- Tokenize the text of one segment (tokens never span segment boundaries:
quoted parts begin and end with a quote character and substituted values are
delimited by non-word characters on both sides).  Every step consumes at
least one character, so the fuel `cs.length + 1` supplied by `tokTxt` never
runs out; recursing on it keeps the definition structural. -/
def tokTxtGo : Nat → List Char → List Tok
  | 0, _ => [Tok.err]
  | _ + 1, [] => []
  | fuel + 1, '=' :: '=' :: r => Tok.op "==" :: tokTxtGo fuel r
  | fuel + 1, '!' :: '=' :: r => Tok.op "!=" :: tokTxtGo fuel r
  | fuel + 1, '<' :: '=' :: r => Tok.op "<=" :: tokTxtGo fuel r
  | fuel + 1, '>' :: '=' :: r => Tok.op ">=" :: tokTxtGo fuel r
  | fuel + 1, '<' :: r => Tok.op "<" :: tokTxtGo fuel r
  | fuel + 1, '>' :: r => Tok.op ">" :: tokTxtGo fuel r
  | fuel + 1, '(' :: r => Tok.lparen :: tokTxtGo fuel r
  | fuel + 1, ')' :: r => Tok.rparen :: tokTxtGo fuel r
  | fuel + 1, ' ' :: r => tokTxtGo fuel r
  | fuel + 1, '\t' :: r => tokTxtGo fuel r
  | fuel + 1, '\n' :: r => tokTxtGo fuel r
  | fuel + 1, c :: rest =>
      if c.isDigit then
        Tok.intLit (digitsToInt (c :: rest.takeWhile Char.isDigit)) ::
          tokTxtGo fuel (rest.dropWhile Char.isDigit)
      else if isWordChar c then
        Tok.name (String.mk (c :: rest.takeWhile isWordChar)) ::
          tokTxtGo fuel (rest.dropWhile isWordChar)
      else if c == '"' || c == '\'' then
        match rest.dropWhile (fun d => d != c) with
        | _ :: r => Tok.strLit (String.mk (rest.takeWhile (fun d => d != c))) :: tokTxtGo fuel r
        | [] => [Tok.err]
      else
        Tok.err :: tokTxtGo fuel rest

/-- Tokenize one text segment. -/
def tokTxt (cs : List Char) : List Tok :=
  tokTxtGo (cs.length + 1) cs

/-- Tokens of the whole segment list. -/
def tokenizeSegs (segs : List Seg) : List Tok :=
  segs.flatMap fun s =>
    match s with
    | Seg.txt cs => tokTxt cs
    | Seg.val v => [Tok.val v]

mutual
/-- The Python expression fragment reachable from the pipeline: literals
and substituted values, unresolvable names, `or`/`and`/`not`, and (possibly
chained) comparisons. -/
inductive PyExpr where
  | lit (v : PyVal)
  | nameRef (s : String)
  | orE (l r : PyExpr)
  | andE (l r : PyExpr)
  | notE (e : PyExpr)
  | cmpE (first : PyExpr) (tail : CmpTail)
deriving Repr
/-- The `(op, operand)` continuation of a chained comparison. -/
inductive CmpTail where
  | done
  | more (op : String) (operand : PyExpr) (rest : CmpTail)
deriving Repr
end

mutual
/-- Parse at `or` precedence (lowest). -/
def parseOrE : Nat → List Tok → Option (PyExpr × List Tok)
  | 0, _ => none
  | fuel + 1, toks =>
      match parseAndE fuel toks with
      | none => none
      | some (l, rest) => parseOrTail fuel l rest

/-- Left fold of `or` operands. -/
def parseOrTail : Nat → PyExpr → List Tok → Option (PyExpr × List Tok)
  | 0, _, _ => none
  | fuel + 1, l, toks =>
      match toks with
      | Tok.name "or" :: rest =>
          match parseAndE fuel rest with
          | none => none
          | some (r, rest') => parseOrTail fuel (PyExpr.orE l r) rest'
      | _ => some (l, toks)

/-- Parse at `and` precedence. -/
def parseAndE : Nat → List Tok → Option (PyExpr × List Tok)
  | 0, _ => none
  | fuel + 1, toks =>
      match parseNotE fuel toks with
      | none => none
      | some (l, rest) => parseAndTail fuel l rest

/-- Left fold of `and` operands. -/
def parseAndTail : Nat → PyExpr → List Tok → Option (PyExpr × List Tok)
  | 0, _, _ => none
  | fuel + 1, l, toks =>
      match toks with
      | Tok.name "and" :: rest =>
          match parseNotE fuel rest with
          | none => none
          | some (r, rest') => parseAndTail fuel (PyExpr.andE l r) rest'
      | _ => some (l, toks)

/-- Parse at `not` precedence (binds looser than comparisons, like Python). -/
def parseNotE : Nat → List Tok → Option (PyExpr × List Tok)
  | 0, _ => none
  | fuel + 1, toks =>
      match toks with
      | Tok.name "not" :: rest =>
          match parseNotE fuel rest with
          | none => none
          | some (e, r) => some (PyExpr.notE e, r)
      | _ => parseCmpE fuel toks

/-- Parse a (possibly chained) comparison. -/
def parseCmpE : Nat → List Tok → Option (PyExpr × List Tok)
  | 0, _ => none
  | fuel + 1, toks =>
      match parseAtomE fuel toks with
      | none => none
      | some (first, rest) =>
          match parseCmpTail fuel rest with
          | none => none
          | some (CmpTail.done, _) => some (first, rest)
          | some (tail, rest') => some (PyExpr.cmpE first tail, rest')

/-- Parse the `(op, operand)*` continuation of a comparison chain. -/
def parseCmpTail : Nat → List Tok → Option (CmpTail × List Tok)
  | 0, _ => none
  | fuel + 1, toks =>
      match toks with
      | Tok.op o :: rest =>
          match parseAtomE fuel rest with
          | none => none
          | some (e, rest') =>
              match parseCmpTail fuel rest' with
              | none => none
              | some (tail, rest'') => some (CmpTail.more o e tail, rest'')
      | _ => some (CmpTail.done, toks)

/-- Parse an atom: a substituted value, a literal, a name, or a
parenthesized expression. -/
def parseAtomE : Nat → List Tok → Option (PyExpr × List Tok)
  | 0, _ => none
  | fuel + 1, toks =>
      match toks with
      | Tok.val v :: rest => some (PyExpr.lit v, rest)
      | Tok.intLit n :: rest => some (PyExpr.lit (PyVal.int n), rest)
      | Tok.strLit s :: rest => some (PyExpr.lit (PyVal.str s), rest)
      | Tok.name "True" :: rest => some (PyExpr.lit (PyVal.bool true), rest)
      | Tok.name "False" :: rest => some (PyExpr.lit (PyVal.bool false), rest)
      | Tok.name n :: rest =>
          if n == "not" || n == "and" || n == "or" then none
          else some (PyExpr.nameRef n, rest)
      | Tok.lparen :: rest =>
          match parseOrE fuel rest with
          | none => none
          | some (e, Tok.rparen :: r) => some (e, r)
          | some _ => none
      | _ => none
end

/-- Parse a full token stream; leftover tokens are a `SyntaxError`.  The fuel
bounds the recursion depth and is generous for every stream (each level of
descent either consumes a token or moves one of five precedence levels
down). -/
def pyParseExpr (toks : List Tok) : Option PyExpr :=
  match parseOrE ((toks.length + 2) * 8) toks with
  | some (e, []) => some e
  | _ => none

mutual
/-- Evaluate the parsed expression with Python semantics: `or`/`and`
short-circuit and return an operand value, `not` returns a `bool`, an
unresolved name is a `NameError` (`none`). -/
def evalPy : PyExpr → Option PyVal
  | PyExpr.lit v => some v
  | PyExpr.nameRef _ => none
  | PyExpr.orE l r =>
      match evalPy l with
      | none => none
      | some lv => if pyTruthy lv then some lv else evalPy r
  | PyExpr.andE l r =>
      match evalPy l with
      | none => none
      | some lv => if pyTruthy lv then evalPy r else some lv
  | PyExpr.notE e =>
      match evalPy e with
      | none => none
      | some v => some (PyVal.bool (!pyTruthy v))
  | PyExpr.cmpE first tail =>
      match evalPy first with
      | none => none
      | some v => evalCmpChain v tail

/-- Evaluate a comparison chain: each link compares the previous operand
value with the next; a failing link stops the chain at `False`. -/
def evalCmpChain (u : PyVal) : CmpTail → Option PyVal
  | CmpTail.done => some (PyVal.bool true)
  | CmpTail.more o e rest =>
      match evalPy e with
      | none => none
      | some v =>
          match pyCompare o u v with
          | none => none
          | some c => if c then evalCmpChain v rest else some (PyVal.bool false)
end

/-- `PolicyEngine._evaluate_condition`: the full pipeline; every failure is
caught and becomes `False`, and a successful evaluation is passed through
`bool(...)`. -/
def evaluate_condition (condition : String) (context : EvalContext) : Bool :=
  let segs := replacedSegs context condition.data
  let toks := tokenizeSegs segs
  match pyParseExpr toks with
  | none => false
  | some e =>
      match evalPy e with
      | none => false
      | some v => pyTruthy v

end SPL

namespace SPL

/-! ## `PolicyEngine._matches_resource` and `_matches_action`

`_matches_resource` falls back from exact equality to
`re.match(f'^{policy_resource.replace("*", ".*")}$', target)`.  The pattern
is therefore the resource spec *interpreted as a regular expression* with
each `*` expanded to `.*`.  The embedding compiles patterns made of literal
characters, `.` (any character except newline) and a postfix `*`; a pattern
using any other regex metacharacter (on which the source would raise
`re.error` or apply further regex syntax, outside the resource-spec grammar)
compiles to `none` and is treated as no match.  Python's `$` also matches
just before a single trailing newline, which the matcher reproduces. -/

/-- A regex atom base: `.` or a literal character. -/
inductive ReBase where
  | any
  | lit (c : Char)
deriving Repr, BEq

/-- A compiled atom: a base, possibly starred. -/
def ReAtom := ReBase × Bool

/-- Regex metacharacters outside the compiled fragment (everything the
resource-spec grammar cannot produce). -/
def isReMeta (c : Char) : Bool :=
  c == '(' || c == ')' || c == '[' || c == ']' || c == '{' ||
  c == '}' || c == '+' || c == '?' || c == '\\' || c == '|' ||
  c == '^' || c == '$'

/-- The base an unstarred pattern character compiles to. -/
def reBaseOf (c : Char) : ReBase :=
  if c == '.' then ReBase.any else ReBase.lit c

/-- Compile a pattern to atoms; a leading `*` or a doubled star is the
`re.error` Python raises (`nothing to repeat`). -/
def reCompile : List Char → Option (List ReAtom)
  | [] => some []
  | c :: cs =>
      if c == '*' then none
      else if isReMeta c then none
      else
        match cs with
        | [] => some [(reBaseOf c, false)]
        | d :: cs' =>
            if d == '*' then (reCompile cs').map (fun r => (reBaseOf c, true) :: r)
            else (reCompile (d :: cs')).map (fun r => (reBaseOf c, false) :: r)

/-- Does a base match one character?  `.` excludes the newline. -/
def reBaseMatch : ReBase → Char → Bool
  | ReBase.any, c => c != '\n'
  | ReBase.lit d, c => d == c

/-- `re.match('^...$', s)`: anchored matching; the final `$` also accepts a
single trailing newline.  Every recursive call shrinks
`atoms.length + cs.length`, so the fuel `atoms.length + cs.length + 1`
supplied by `reAccept` never runs out; recursing on it keeps the definition
structural. -/
def reAcceptGo : Nat → List ReAtom → List Char → Bool
  | 0, _, _ => false
  | _ + 1, [], cs => cs.isEmpty || cs == ['\n']
  | _ + 1, (_, false) :: _, [] => false
  | fuel + 1, (b, false) :: atoms, c :: cs => reBaseMatch b c && reAcceptGo fuel atoms cs
  | fuel + 1, (b, true) :: atoms, cs =>
      reAcceptGo fuel atoms cs ||
        match cs with
        | [] => false
        | c :: cs' => reBaseMatch b c && reAcceptGo fuel ((b, true) :: atoms) cs'

/-- The anchored regex match. -/
def reAccept (atoms : List ReAtom) (cs : List Char) : Bool :=
  reAcceptGo (atoms.length + cs.length + 1) atoms cs

/-- `str.replace('*', '.*')` on the pattern characters. -/
def starExpand : List Char → List Char
  | [] => []
  | '*' :: cs => '.' :: '*' :: starExpand cs
  | c :: cs => c :: starExpand cs

/-- `PolicyEngine._matches_resource`: exact match, else the anchored regex
built from the spec with every `*` replaced by `.*`. -/
def matches_resource (policy_resource target_resource : String) : Bool :=
  if policy_resource == target_resource then true
  else
    match reCompile (starExpand policy_resource.data) with
    | some atoms => reAccept atoms target_resource.data
    | none => false

/-- `PolicyEngine._matches_action`: a `*` in the policy's action list grants
all actions, otherwise membership. -/
def matches_action (policy_actions : List String) (target_action : String) : Bool :=
  if policy_actions.contains "*" then true
  else policy_actions.contains target_action

end SPL

namespace SPL

/-! ## `PolicyEngine.check_access`

The engine is constructed from the compiled-policy dict; `_index_roles`,
`_index_users` and `_index_resources` build name-keyed dicts (a later entry
with the same name overwrites an earlier one), `_index_policies` keeps the
policy list.  The engine reads only `name` and `properties` of an entity
entry and `type`/`actions`/`resource`/`condition` of a policy entry; other
keys are never accessed and are not modelled.  `datetime.now()` is passed in
explicitly as the `now` snapshot. -/

/-- A role/user/resource entry of the compiled policy as the engine reads
it. -/
structure EntityIR where
  name : String
  properties : List (String × PyVal) := []
deriving Repr

/-- A policy entry of the compiled policy as the engine reads it
(`condition` is `none` for a missing or `null` key). -/
structure PolicyIR where
  type : String
  actions : List String
  resource : String
  condition : Option String := none
deriving Repr

/-- The compiled policy dict handed to `PolicyEngine.__init__`
(each list defaults to `[]` like the source's `.get(key, [])`). -/
structure CompiledPolicy where
  roles : List EntityIR := []
  users : List EntityIR := []
  resources : List EntityIR := []
  policies : List PolicyIR := []
deriving Repr

/-- Building then probing a name-keyed dict (`_index_roles` et al.): the last
entry with the name wins. -/
def indexGet (entries : List EntityIR) (name : String) : Option EntityIR :=
  entries.foldl (fun acc e => if e.name == name then some e else acc) none

/-- The `datetime.now()` snapshot read by `check_access`: `hour`, `minute`,
`strftime('%A')`, `date()` and `weekday()`. -/
structure NowTime where
  hour : Int := 12
  minute : Int := 0
  dayName : String := "Monday"
  dateY : Nat := 2025
  dateM : Nat := 1
  dateD : Nat := 6
  weekday : Int := 0
deriving Repr

/-- The caller-supplied `context` argument: the `time`, `request` and
`device` groups (a missing group is the empty dict). -/
structure CallerContext where
  time : List (String × PyVal) := []
  request : List (String × PyVal) := []
  device : List (String × PyVal) := []
deriving Repr

/-- `group.get(key, default)`. -/
def getD (group : List (String × PyVal)) (key : String) (dflt : PyVal) : PyVal :=
  (List.lookup key group).getD dflt

/-- One entry of `matched_policies` (`policy.get('condition', 'Always')`;
the embedding writes `Always` for an absent condition). -/
structure MatchedPolicy where
  type : String
  actions : List String
  resource : String
  condition : String
deriving Repr

/-- The decision dict returned by `check_access`.  The three early fail-closed
returns carry no `context` key, modelled as `none`. -/
structure Decision where
  allowed : Bool
  reason : String
  decision : String
  matched_policies : List MatchedPolicy
  context : Option EvalContext := none

/-- The `eval_context` built by `check_access`: the five attribute
namespaces, caller-supplied fields overriding the defaults. -/
def build_eval_context (username : String) (user_role : PyVal)
    (resource_name : String) (resource : EntityIR)
    (context : CallerContext) (now : NowTime) : EvalContext :=
  [("user",
     [("name", PyVal.str username),
      ("role", user_role)]),
   ("time",
     [("hour", getD context.time "hour" (PyVal.int now.hour)),
      ("minute", getD context.time "minute" (PyVal.int now.minute)),
      ("day", getD context.time "day" (PyVal.str now.dayName)),
      ("date", getD context.time "date" (PyVal.date now.dateY now.dateM now.dateD)),
      ("weekday", getD context.time "weekday" (PyVal.int now.weekday))]),
   ("request",
     [("ip", getD context.request "ip" (PyVal.str "unknown")),
      ("method", getD context.request "method" (PyVal.str "GET")),
      ("path", getD context.request "path" (PyVal.str "/")),
      ("headers", getD context.request "headers" (PyVal.dict [])),
      ("user_agent", getD context.request "user_agent" (PyVal.str "unknown"))]),
   ("device",
     [("type", getD context.device "type" (PyVal.str "unknown")),
      ("trusted", getD context.device "trusted" (PyVal.bool false)),
      ("os", getD context.device "os" (PyVal.str "unknown")),
      ("browser", getD context.device "browser" (PyVal.str "unknown")),
      ("location", getD context.device "location" (PyVal.str "unknown")),
      ("id", getD context.device "id" (PyVal.str "unknown"))]),
   ("resource",
     [("name", PyVal.str resource_name),
      ("path", getD resource.properties "path" (PyVal.str "")),
      ("type", getD resource.properties "type" (PyVal.str "unknown"))])]

/-- Does one policy match the request (resource spec, action set, and — if a
truthy condition string is present — the evaluated condition)? -/
def policyMatches (p : PolicyIR) (resource_name action : String)
    (eval_context : EvalContext) : Bool :=
  matches_resource p.resource resource_name &&
  matches_action p.actions action &&
  (match p.condition with
   | some c => if c.isEmpty then true else evaluate_condition c eval_context
   | none => true)

/-- The `matched_policies` entry appended for a matching policy. -/
def mkMatched (p : PolicyIR) : MatchedPolicy :=
  { type := p.type
    actions := p.actions
    resource := p.resource
    condition := p.condition.getD "Always" }

/-- The policy-evaluation loop of `check_access`: fold over the policies in
declaration order accumulating `matched_policies`, `deny_found` and
`allow_found`. -/
def evalPolicies (resource_name action : String) (eval_context : EvalContext)
    (st : List MatchedPolicy × Bool × Bool) :
    List PolicyIR → List MatchedPolicy × Bool × Bool
  | [] => st
  | p :: rest =>
      if policyMatches p resource_name action eval_context then
        evalPolicies resource_name action eval_context
          (st.1 ++ [mkMatched p],
           st.2.1 || p.type == "DENY",
           st.2.2 || (p.type != "DENY" && p.type == "ALLOW")) rest
      else
        evalPolicies resource_name action eval_context st rest

/-- `PolicyEngine.check_access`.  The three resolution failures return the
fail-closed DENY without evaluating any policy; otherwise the loop's
`deny_found`/`allow_found` flags pick the decision, DENY overriding ALLOW
and no match defaulting to DENY. -/
def check_access (policy : CompiledPolicy) (username action resource_name : String)
    (context : CallerContext := {}) (now : NowTime := {}) : Decision :=
  match indexGet policy.users username with
  | none =>
      { allowed := false
        reason := "User '" ++ username ++ "' not found"
        decision := "DENY"
        matched_policies := [] }
  | some user =>
      match indexGet policy.resources resource_name with
      | none =>
          { allowed := false
            reason := "Resource '" ++ resource_name ++ "' not found"
            decision := "DENY"
            matched_policies := [] }
      | some resource =>
          match List.lookup "role" user.properties with
          | none =>
              { allowed := false
                reason := "User '" ++ username ++ "' has no role assigned"
                decision := "DENY"
                matched_policies := [] }
          | some user_role =>
              if !pyTruthy user_role then
                { allowed := false
                  reason := "User '" ++ username ++ "' has no role assigned"
                  decision := "DENY"
                  matched_policies := [] }
              else
                let eval_context :=
                  build_eval_context username user_role resource_name resource context now
                let (matched, deny_found, allow_found) :=
                  evalPolicies resource_name action eval_context ([], false, false)
                    policy.policies
                if deny_found then
                  { allowed := false
                    reason := "Explicit DENY policy matched"
                    decision := "DENY"
                    matched_policies := matched
                    context := some eval_context }
                else if allow_found then
                  { allowed := true
                    reason := "ALLOW policy matched"
                    decision := "ALLOW"
                    matched_policies := matched
                    context := some eval_context }
                else
                  { allowed := false
                    reason := "No matching policies (default deny)"
                    decision := "DENY"
                    matched_policies := matched
                    context := some eval_context }

end SPL

namespace SPL

/-! ## The AST (`backend/compiler/ast_nodes.py`, as built by the parser)

Property values are strings, numbers, booleans or lists of these (the parser
normalizes action keywords to lowercase strings and `*` to the string `*`).
Numbers are embedded as `Int`; decimal literals do not occur in the claims'
fragment. -/

/-- A property / literal value as stored in AST nodes. -/
inductive SplVal where
  | str (s : String)
  | int (n : Int)
  | bool (b : Bool)
  | list (elems : List SplVal)
deriving Repr

/-- A condition expression node: `BinaryOpNode`, `UnaryOpNode`,
`AttributeNode` or `LiteralNode`, each carrying its source line. -/
inductive Expr where
  | binaryOp (operator : String) (left right : Expr) (line_number : Nat)
  | unaryOp (operator : String) (operand : Expr) (line_number : Nat)
  | attr (object_name attribute_name : String) (line_number : Nat)
  | literal (value : SplVal) (line_number : Nat)
deriving Repr

/-- The shared shape of `RoleNode`, `UserNode` and `ResourceNode`. -/
structure DefData where
  name : String
  properties : List (String × SplVal)
  line_number : Nat
deriving Repr

/-- A `PolicyNode`. -/
structure PolicyData where
  policy_type : String
  actions : List String
  resource : String
  condition : Option Expr := none
  line_number : Nat
deriving Repr

/-- A top-level statement of a `ProgramNode`. -/
inductive Statement where
  | roleDef (d : DefData)
  | userDef (d : DefData)
  | resourceDef (d : DefData)
  | policyRule (p : PolicyData)
deriving Repr

/-- A `ProgramNode` is its statement list. -/
abbrev Program := List Statement

mutual
/-- Python `repr` of a property value (string values quoted), used inside
rendered lists. -/
def splValRepr : SplVal → String
  | SplVal.str s => "'" ++ s ++ "'"
  | SplVal.int n => toString n
  | SplVal.bool true => "True"
  | SplVal.bool false => "False"
  | SplVal.list l => "[" ++ splValReprSep l ++ "]"
/-- Comma-joined `repr`s of list elements. -/
def splValReprSep : List SplVal → String
  | [] => ""
  | [x] => splValRepr x
  | x :: rest => splValRepr x ++ ", " ++ splValReprSep rest
end

/-- Python `str` of a property value (a bare string stays unquoted). -/
def splValStr : SplVal → String
  | SplVal.str s => s
  | v => splValRepr v

end SPL

namespace SPL

/-! ## `CodeGenerator` (`backend/compiler/code_generator.py`), `json` target

`generate` visits the program, each statement appending one record to
`self.output`, and `_generate_json` returns `json.dumps(self.output)`.  The
embedding models the *parsed value* of that JSON string (which is what
`routes.py` feeds back through `json.loads`): a JSON array of per-statement
records. -/

/-- A JSON value. -/
inductive Json where
  | str (s : String)
  | int (n : Int)
  | bool (b : Bool)
  | null
  | arr (items : List Json)
  | obj (fields : List (String × Json))
deriving Repr

/-- JSON encoding of a property value. -/
def splValJson : SplVal → Json
  | SplVal.str s => Json.str s
  | SplVal.int n => Json.int n
  | SplVal.bool b => Json.bool b
  | SplVal.list l => Json.arr (splValJsonList l)
where
  /-- JSON encoding of each element. -/
  splValJsonList : List SplVal → List Json
  | [] => []
  | x :: rest => splValJson x :: splValJsonList rest

/-- The `__str__` of an expression node (used by `_condition_to_dict` for the
node kinds it does not handle). -/
def exprStr : Expr → String
  | Expr.binaryOp op l r _ => "BinaryOp(" ++ exprStr l ++ " " ++ op ++ " " ++ exprStr r ++ ")"
  | Expr.unaryOp op operand _ => "UnaryOp(" ++ op ++ " " ++ exprStr operand ++ ")"
  | Expr.attr o a _ => o ++ "." ++ a
  | Expr.literal (SplVal.str s) _ => "\"" ++ s ++ "\""
  | Expr.literal v _ => splValStr v

/-- `CodeGenerator._condition_to_dict`: binary operations, attributes and
literals become dicts; any other node (`UnaryOpNode`) falls through to
`str(condition)`. -/
def condition_to_dict : Expr → Json
  | Expr.binaryOp op l r line =>
      Json.obj [("operator", Json.str op),
                ("left", condition_to_dict l),
                ("right", condition_to_dict r),
                ("line_number", Json.int line)]
  | Expr.attr o a line =>
      Json.obj [("type", Json.str "attribute"),
                ("object", Json.str o),
                ("attribute", Json.str a),
                ("line_number", Json.int line)]
  | Expr.literal v line =>
      Json.obj [("type", Json.str "literal"),
                ("value", splValJson v),
                ("line_number", Json.int line)]
  | e => Json.str (exprStr e)

/-- The record one statement appends to `self.output` in the `json` target
(`visit_RoleNode` / `visit_UserNode` / `visit_ResourceNode` /
`visit_PolicyNode`). -/
def genStatement : Statement → Json
  | Statement.roleDef d =>
      Json.obj [("type", Json.str "role"),
                ("name", Json.str d.name),
                ("permissions",
                  splValJson ((List.lookup "can" d.properties).getD (SplVal.list []))),
                ("line_number", Json.int d.line_number)]
  | Statement.userDef d =>
      Json.obj [("type", Json.str "user"),
                ("name", Json.str d.name),
                ("properties",
                  Json.obj (d.properties.map fun kv => (kv.1, splValJson kv.2))),
                ("line_number", Json.int d.line_number)]
  | Statement.resourceDef d =>
      Json.obj [("type", Json.str "resource"),
                ("name", Json.str d.name),
                ("path", splValJson ((List.lookup "path" d.properties).getD (SplVal.str ""))),
                ("properties",
                  Json.obj (d.properties.map fun kv => (kv.1, splValJson kv.2))),
                ("line_number", Json.int d.line_number)]
  | Statement.policyRule p =>
      Json.obj [("type", Json.str "policy"),
                ("effect", Json.str (strToLower p.policy_type)),
                ("actions", Json.arr (p.actions.map Json.str)),
                ("resource", Json.str p.resource),
                ("condition",
                  match p.condition with
                  | none => Json.null
                  | some c => condition_to_dict c),
                ("line_number", Json.int p.line_number)]

/-- `CodeGenerator.generate` with `target_format='json'` on a non-null AST:
visit every statement, then `_generate_json` — a JSON *array* of the
appended records. -/
def generate_json (prog : Program) : Json :=
  Json.arr (prog.map genStatement)

/-- Is a JSON value an object (the claimed IR shape is an object)? -/
def isJsonObj : Json → Bool
  | Json.obj _ => true
  | _ => false

/-- The number of policy records (`"type": "policy"`) in generated output. -/
def jsonPolicyCount : Json → Nat
  | Json.arr items =>
      (items.filter fun it =>
        match it with
        | Json.obj fields =>
            match List.lookup "type" fields with
            | some (Json.str t) => t == "policy"
            | _ => false
        | _ => false).length
  | _ => 0

end SPL

namespace SPL

/-! ## `SemanticAnalyzer` (`backend/compiler/semantic_analyzer.py`)

The analyzer's mutable `self` becomes an explicit state record threaded
through the visitors and the five phases.  Registration in the symbol table
is omitted: `SymbolTable.define` silently overwrites and never produces a
diagnostic, and nothing in the analyzer's result paths reads the table back
(its `to_dict` dump in `get_results` is not modelled). -/

/-- A `SemanticError` diagnostic (`message`, `line_number`, `error_type`). -/
structure SemanticError where
  message : String
  line_number : Option Nat := none
  error_type : String := "ERROR"
deriving Repr, DecidableEq

/-- `PolicyConflict._calculate_risk_score`: the score table, defaulting
to 50. -/
def calculate_risk_score (conflict_type : String) : Nat :=
  if conflict_type == "ALLOW_DENY_CONFLICT" then 85
  else if conflict_type == "PRIVILEGE_ESCALATION" then 95
  else if conflict_type == "OVERLY_PERMISSIVE" then 70
  else if conflict_type == "LOGICAL_CONTRADICTION" then 60
  else if conflict_type == "REDUNDANT_POLICY" then 20
  else 50

/-- A `PolicyConflict`, with its risk score computed at construction. -/
structure PolicyConflict where
  policy1 : PolicyData
  policy2 : PolicyData
  conflict_type : String
  description : String
  risk_score : Nat
deriving Repr

/-- The analyzer's state (`self`), all collections in append order. -/
structure AnalyzerState where
  errors : List SemanticError := []
  warnings : List SemanticError := []
  conflicts : List PolicyConflict := []
  roles : List (String × DefData) := []
  users : List (String × DefData) := []
  resources : List (String × DefData) := []
  policies : List PolicyData := []
  wildcard_permissions : List (String × Nat) := []
  guest_delete_permissions : List PolicyData := []
  overly_permissive_policies : List PolicyData := []
  undefined_references : List (String × String × String) := []
  role_references_in_conditions : List (String × Nat × String) := []

/-- `SemanticAnalyzer.VALID_ACTIONS`. -/
def validActions : List String :=
  ["read", "write", "delete", "execute", "create", "update", "list", "*"]

/-- The sorted, comma-joined action vocabulary used in the invalid-action
message (`', '.join(sorted(VALID_ACTIONS - {'*'}))`). -/
def validActionsSorted : String :=
  "create, delete, execute, list, read, update, write"

/-- `_condition_allows_guest`: a literal containing `guest`
(case-insensitively) found by recursing through *binary* operations only;
attributes are `False` and any other node (`UnaryOpNode`) falls through to
the final `return False`. -/
def condition_allows_guest : Expr → Bool
  | Expr.binaryOp _ l r _ => condition_allows_guest l || condition_allows_guest r
  | Expr.literal v _ => strContains (strToLower (splValStr v)) "guest"
  | Expr.attr _ _ _ => false
  | Expr.unaryOp _ _ _ => false

/-- `_node_to_string`. -/
def node_to_string : Expr → String
  | Expr.binaryOp op l r _ =>
      "(" ++ node_to_string l ++ " " ++ op ++ " " ++ node_to_string r ++ ")"
  | Expr.unaryOp op operand _ => op ++ "(" ++ node_to_string operand ++ ")"
  | Expr.attr o a _ => o ++ "." ++ a
  | Expr.literal v _ => splValStr v

/-- `_is_admin_context`: no condition is not admin context; otherwise look
for an administrative substring in the rendered condition. -/
def is_admin_context : Option Expr → Bool
  | none => false
  | some c =>
      strContains (strToLower (node_to_string c)) "admin" ||
      strContains (strToLower (node_to_string c)) "administrator"

/-- The attribute-namespace table of `visit_AttributeNode`. -/
def validObjects : List (String × List String) :=
  [("user", ["role", "name", "id", "department", "clearance", "location"]),
   ("time", ["hour", "minute", "day", "month", "year", "weekday"]),
   ("request", ["ip", "method", "path", "headers", "user_agent"]),
   ("resource", ["path", "type", "owner", "sensitivity"]),
   ("device", ["type", "id", "os", "browser", "location", "trusted"])]

/-- `_check_role_comparison`: record the role-name literal of a
`user.role == "Name"` (or reversed) comparison. -/
def check_role_comparison (st : AnalyzerState) (op : String) (l r : Expr)
    (line : Nat) : AnalyzerState :=
  match l, r with
  | Expr.attr "user" "role" _, Expr.literal (SplVal.str s) _ =>
      { st with role_references_in_conditions :=
          st.role_references_in_conditions ++
            [(s, line, " in condition at line " ++ toString line)] }
  | Expr.literal (SplVal.str s) _, Expr.attr "user" "role" _ =>
      { st with role_references_in_conditions :=
          st.role_references_in_conditions ++
            [(s, line, " in condition at line " ++ toString line)] }
  | _, _ => st

/-- The condition visitors (`visit_BinaryOpNode`, `visit_UnaryOpNode`,
`visit_AttributeNode`, `visit_LiteralNode`). -/
def visitExpr (st : AnalyzerState) : Expr → AnalyzerState
  | Expr.binaryOp op l r line =>
      let st1 := visitExpr st l
      let st2 := visitExpr st1 r
      if op == "==" || op == "!=" then check_role_comparison st2 op l r line else st2
  | Expr.unaryOp _ operand _ => visitExpr st operand
  | Expr.literal _ _ => st
  | Expr.attr obj field line =>
      match List.lookup obj validObjects with
      | some fields =>
          if fields.contains field then st
          else
            { st with warnings := st.warnings ++
                [{ message := "Unknown attribute '" ++ field ++ "' on object '" ++ obj ++ "'"
                   line_number := some line
                   error_type := "WARNING" }] }
      | none =>
          { st with warnings := st.warnings ++
              [{ message := "Unknown object in attribute access: '" ++ obj ++ "'"
                 line_number := some line
                 error_type := "WARNING" }] }

/-- The invalid-action errors of `visit_RoleNode`'s `can` validation. -/
def canActionErrors (role_name : String) (line : Nat) : List SplVal → List SemanticError
  | [] => []
  | a :: rest =>
      (if validActions.contains (strToLower (splValStr a)) then []
       else
         [{ message := "Invalid action '" ++ splValStr a ++ "' in role '" ++ role_name ++
              "'. Valid actions are: " ++ validActionsSorted ++ " or *"
            line_number := some line
            error_type := "ERROR" }]) ++ canActionErrors role_name line rest

/-- `visit_RoleNode`: duplicate check, registration, `can` validation and the
wildcard-permission record. -/
def visit_RoleNode (st : AnalyzerState) (d : DefData) : AnalyzerState :=
  if (List.lookup d.name st.roles).isSome then
    { st with errors := st.errors ++
        [{ message := "Duplicate role definition: '" ++ d.name ++ "'"
           line_number := some d.line_number
           error_type := "ERROR" }] }
  else
    let st1 := { st with roles := st.roles ++ [(d.name, d)] }
    let st2 :=
      match List.lookup "can" d.properties with
      | none => st1
      | some canValue =>
          let actions_to_check :=
            match canValue with
            | SplVal.list l => l
            | v => [v]
          { st1 with errors := st1.errors ++ canActionErrors d.name d.line_number actions_to_check }
    match List.lookup "can" d.properties with
    | some (SplVal.str s) =>
        if s == "*" then
          { st2 with wildcard_permissions := st2.wildcard_permissions ++ [(d.name, d.line_number)] }
        else st2
    | _ => st2

/-- `visit_UserNode`: duplicate check and registration. -/
def visit_UserNode (st : AnalyzerState) (d : DefData) : AnalyzerState :=
  if (List.lookup d.name st.users).isSome then
    { st with errors := st.errors ++
        [{ message := "Duplicate user definition: '" ++ d.name ++ "'"
           line_number := some d.line_number
           error_type := "ERROR" }] }
  else
    { st with users := st.users ++ [(d.name, d)] }

/-- `visit_ResourceNode`: duplicate check and registration. -/
def visit_ResourceNode (st : AnalyzerState) (d : DefData) : AnalyzerState :=
  if (List.lookup d.name st.resources).isSome then
    { st with errors := st.errors ++
        [{ message := "Duplicate resource definition: '" ++ d.name ++ "'"
           line_number := some d.line_number
           error_type := "ERROR" }] }
  else
    { st with resources := st.resources ++ [(d.name, d)] }

/-- The unknown-action warnings of `visit_PolicyNode`. -/
def policyActionWarnings (line : Nat) : List String → List SemanticError
  | [] => []
  | a :: rest =>
      (if a != "*" && !validActions.contains a then
         [{ message := "Unknown action '" ++ a ++ "' in policy"
            line_number := some line
            error_type := "WARNING" }]
       else []) ++ policyActionWarnings line rest

/-- `visit_PolicyNode`: record the policy, warn on unknown actions, track
unconditioned sensitive actions and guest-delete grants (for *any* policy
kind), then visit the condition. -/
def visit_PolicyNode (st : AnalyzerState) (p : PolicyData) : AnalyzerState :=
  let st1 := { st with policies := st.policies ++ [p] }
  let st2 := { st1 with warnings := st1.warnings ++ policyActionWarnings p.line_number p.actions }
  let has_sensitive := p.actions.any fun a => a == "delete" || a == "execute" || a == "update"
  let st3 :=
    if has_sensitive && p.condition.isNone then
      { st2 with overly_permissive_policies := st2.overly_permissive_policies ++ [p] }
    else st2
  let st4 :=
    match p.condition with
    | some c =>
        if condition_allows_guest c && p.actions.contains "delete" then
          { st3 with guest_delete_permissions := st3.guest_delete_permissions ++ [p] }
        else st3
    | none => st3
  match p.condition with
  | some c => visitExpr st4 c
  | none => st4

/-- The visitor dispatch (`ASTVisitor.visit`) over one statement. -/
def visitStatement (st : AnalyzerState) : Statement → AnalyzerState
  | Statement.roleDef d => visit_RoleNode st d
  | Statement.userDef d => visit_UserNode st d
  | Statement.resourceDef d => visit_ResourceNode st d
  | Statement.policyRule p => visit_PolicyNode st p

/-- Phase 1 (`_phase_collection`): visit every statement in order. -/
def phase_collection (st : AnalyzerState) (prog : Program) : AnalyzerState :=
  prog.foldl visitStatement st

/-- The user-role validation of `_phase_validation`.  A non-string `role`
property is never a key of `self.roles` (CPython would raise `TypeError` on
an unhashable list value; the claims' theorems only quantify over programs
whose `role` properties are strings). -/
def validateUserRoles (st : AnalyzerState) : AnalyzerState :=
  st.users.foldl
    (fun acc user =>
      match List.lookup "role" user.2.properties with
      | none => acc
      | some roleVal =>
          let defined :=
            match roleVal with
            | SplVal.str s => (List.lookup s acc.roles).isSome
            | _ => false
          if defined then acc
          else
            { acc with
                errors := acc.errors ++
                  [{ message := "User '" ++ user.1 ++ "' references undefined role '" ++
                       splValStr roleVal ++ "'"
                     line_number := some user.2.line_number
                     error_type := "ERROR" }]
                undefined_references := acc.undefined_references ++
                  [("role", splValStr roleVal, user.1)] })
    st

/-- The policy-resource validation of `_phase_validation`: a plain
identifier (no leading `/`, no `*`, no `.`) must be a defined resource
(ERROR); a path spec that matches no defined resource path warns. -/
def validatePolicyResources (st : AnalyzerState) : AnalyzerState :=
  st.policies.foldl
    (fun acc p =>
      let resource_name := p.resource
      let is_path := startsWithChars resource_name.data "/".data
      let has_wildcard := strContains resource_name "*"
      let has_dot := strContains resource_name "."
      if !(is_path || has_wildcard || has_dot) then
        if (List.lookup resource_name acc.resources).isNone then
          { acc with
              errors := acc.errors ++
                [{ message := "Policy references undefined resource '" ++ resource_name ++
                     "'. Define it with: RESOURCE " ++ resource_name ++ " { ... }"
                   line_number := some p.line_number
                   error_type := "ERROR" }]
              undefined_references := acc.undefined_references ++
                [("resource", resource_name, "policy")] }
        else acc
      else if is_path then
        let matching := acc.resources.filter fun r =>
          match List.lookup "path" r.2.properties with
          | some (SplVal.str s) => s == resource_name
          | _ => false
        if matching.isEmpty then
          { acc with warnings := acc.warnings ++
              [{ message := "Policy uses path '" ++ resource_name ++
                   "' which doesn't match any defined resource path"
                 line_number := some p.line_number
                 error_type := "WARNING" }] }
        else acc
      else acc)
    st

/-- `_validate_role_references_in_conditions`. -/
def validateRoleRefs (st : AnalyzerState) : AnalyzerState :=
  st.role_references_in_conditions.foldl
    (fun acc ref =>
      if (List.lookup ref.1 acc.roles).isSome then acc
      else
        { acc with
            errors := acc.errors ++
              [{ message := "Condition references undefined role '" ++ ref.1 ++ "'" ++ ref.2.2
                 line_number := some ref.2.1
                 error_type := "ERROR" }]
            undefined_references := acc.undefined_references ++
              [("role", ref.1, "condition")] })
    st

/-- Phase 2 (`_phase_validation`). -/
def phase_validation (st : AnalyzerState) : AnalyzerState :=
  validateRoleRefs (validatePolicyResources (validateUserRoles st))

/-- `_conditions_may_overlap`: without a constraint solver every pair of
conditions is treated as possibly overlapping (the source returns `True` on
both paths). -/
def conditions_may_overlap : Option Expr → Option Expr → Bool
  | none, _ => true
  | _, none => true
  | _, _ => true

/-- `_policies_conflict`: same resource, overlapping action sets, and — only
for opposite kinds — possibly-overlapping conditions; same-kind pairs return
`False`. -/
def policies_conflict (policy1 policy2 : PolicyData) : Bool :=
  if policy1.resource != policy2.resource then false
  else if !policy1.actions.any (fun a => policy2.actions.contains a) then false
  else if policy1.policy_type != policy2.policy_type then
    conditions_may_overlap policy1.condition policy2.condition
  else false

/-- `_determine_conflict_type`. -/
def determine_conflict_type (policy1 policy2 : PolicyData) : String :=
  if policy1.policy_type != policy2.policy_type then
    if policy1.actions.contains "delete" || policy2.actions.contains "delete" then
      "PRIVILEGE_ESCALATION"
    else "ALLOW_DENY_CONFLICT"
  else "LOGICAL_CONTRADICTION"

/-- Common actions of two policies in first-policy order (the source renders
`list(set(...) & set(...))`, whose iteration order is hash-dependent; the
embedding fixes first-occurrence order — only the description text
depends on it). -/
def commonActions (policy1 policy2 : PolicyData) : List String :=
  (policy1.actions.eraseDups).filter fun a => policy2.actions.contains a

/-- `_generate_conflict_description`. -/
def generate_conflict_description (policy1 policy2 : PolicyData) : String :=
  "Conflicting policies on resource '" ++ policy1.resource ++ "' for action(s) " ++
    String.intercalate ", " (commonActions policy1 policy2) ++ ": " ++
    policy1.policy_type ++ " (line " ++ toString policy1.line_number ++ ") vs " ++
    policy2.policy_type ++ " (line " ++ toString policy2.line_number ++ ")"

/-- The `PolicyConflict(policy1, policy2, type, description)` constructor. -/
def mkConflict (policy1 policy2 : PolicyData) : PolicyConflict :=
  let ct := determine_conflict_type policy1 policy2
  { policy1 := policy1
    policy2 := policy2
    conflict_type := ct
    description := generate_conflict_description policy1 policy2
    risk_score := calculate_risk_score ct }

/-- The inner loop of `_phase_conflict_detection`: compare `policy1` with
every later policy of its group, appending a conflict per conflicting
pair. -/
def conflictInner (policy1 : PolicyData) (acc : List PolicyConflict) :
    List PolicyData → List PolicyConflict
  | [] => acc
  | q :: qs =>
      conflictInner policy1
        (if policies_conflict policy1 q then acc ++ [mkConflict policy1 q] else acc) qs

/-- The outer loop over one resource group (`for i, policy1 in enumerate:
for policy2 in policies[i+1:]`). -/
def conflictOuter (acc : List PolicyConflict) : List PolicyData → List PolicyConflict
  | [] => acc
  | p :: ps => conflictOuter (conflictInner p acc ps) ps

/-- Building the `resource_policies` dict: append to the existing group or
start a new one (Python dict, insertion-ordered). -/
def addToGroups (groups : List (String × List PolicyData)) (p : PolicyData) :
    List (String × List PolicyData) :=
  if (List.lookup p.resource groups).isSome then
    groups.map fun g => if g.1 == p.resource then (g.1, g.2 ++ [p]) else g
  else groups ++ [(p.resource, [p])]

/-- `_phase_conflict_detection` as a function of the collected policy list:
group by resource, then run the pair loops per group. -/
def conflictsOf (policies : List PolicyData) : List PolicyConflict :=
  (policies.foldl addToGroups []).foldl (fun acc g => conflictOuter acc g.2) []

/-- Phase 3: append the detected conflicts. -/
def phase_conflict_detection (st : AnalyzerState) : AnalyzerState :=
  { st with conflicts := st.conflicts ++ conflictsOf st.policies }

/-- The escalation scan of `_detect_privilege_escalation`. -/
def detectPrivilegeEscalation (st : AnalyzerState) : AnalyzerState :=
  st.policies.foldl
    (fun acc p =>
      if p.policy_type == "ALLOW" &&
         p.actions.any (fun a => a == "delete" || a == "execute") &&
         !is_admin_context p.condition then
        { acc with warnings := acc.warnings ++
            [{ message := "Policy grants sensitive actions without admin context"
               line_number := some p.line_number
               error_type := "RISK" }] }
      else acc)
    st

/-- Phase 4 (`_phase_security_analysis`): wildcard-permission warnings, the
guest-delete *errors* (severity tag `RISK`, appended to `self.errors`, hence
blocking), overly-permissive warnings, and the escalation scan. -/
def phase_security_analysis (st : AnalyzerState) : AnalyzerState :=
  let st1 := { st with warnings := st.warnings ++
      st.wildcard_permissions.map fun (w : String × Nat) =>
        ({ message := "SECURITY: Role '" ++ w.1 ++ "' has wildcard permissions (*)"
           line_number := some w.2
           error_type := "RISK" } : SemanticError) }
  let st2 := { st1 with errors := st1.errors ++
      st1.guest_delete_permissions.map fun (p : PolicyData) =>
        ({ message := "CRITICAL SECURITY RISK: Policy grants 'delete' to Guest role"
           line_number := some p.line_number
           error_type := "RISK" } : SemanticError) }
  let st3 := { st2 with warnings := st2.warnings ++
      st2.overly_permissive_policies.map fun (p : PolicyData) =>
        ({ message := "Policy allows multiple sensitive actions without conditions"
           line_number := some p.line_number
           error_type := "RISK" } : SemanticError) }
  detectPrivilegeEscalation st3

/-- The `statistics` block of `get_results`. -/
structure Statistics where
  roles_defined : Nat
  users_defined : Nat
  resources_defined : Nat
  policies_defined : Nat
  conflicts_found : Nat
  undefined_references : Nat
  role_references_in_conditions : Nat
  security_risks : Nat
deriving Repr, DecidableEq

/-- The analyzer's result (`get_results`; the `security_issues` echo and the
symbol-table dump are not modelled). -/
structure AnalysisResults where
  success : Bool
  errors : List SemanticError
  warnings : List SemanticError
  conflicts : List PolicyConflict
  statistics : Statistics

/-- `get_results`: `success` iff no errors, plus the collected lists and
counts. -/
def get_results (st : AnalyzerState) : AnalysisResults :=
  { success := st.errors.isEmpty
    errors := st.errors
    warnings := st.warnings
    conflicts := st.conflicts
    statistics :=
      { roles_defined := st.roles.length
        users_defined := st.users.length
        resources_defined := st.resources.length
        policies_defined := st.policies.length
        conflicts_found := st.conflicts.length
        undefined_references := st.undefined_references.length
        role_references_in_conditions := st.role_references_in_conditions.length
        security_risks := st.wildcard_permissions.length + st.guest_delete_permissions.length } }

/-- `SemanticAnalyzer.analyze` on a non-null AST: the five phases in order
(phase 5, `_phase_recommendations`, is a `pass`). -/
def analyze (prog : Program) : AnalysisResults :=
  get_results
    (phase_security_analysis
      (phase_conflict_detection
        (phase_validation
          (phase_collection {} prog))))

end SPL

namespace SPL

/-! ## Claim-side definitions and concrete instances

Definitions written from the claims' own words (for refinement comparisons),
and the concrete programs, engines and contexts the counterexamples and
witnesses evaluate. -/

/-- The claims' glob semantics for a resource spec: each `*` matches any
character sequence, every other character only itself, anchored at both
ends (fuel-structural like `reAcceptGo`; `globMatch` supplies enough). -/
def globMatchGo : Nat → List Char → List Char → Bool
  | 0, _, _ => false
  | _ + 1, [], cs => cs.isEmpty
  | fuel + 1, '*' :: ps, cs =>
      globMatchGo fuel ps cs ||
        (match cs with
         | [] => false
         | _ :: cs' => globMatchGo fuel ('*' :: ps) cs')
  | _ + 1, _ :: _, [] => false
  | fuel + 1, p :: ps, c :: cs => p == c && globMatchGo fuel ps cs

/-- The claims' glob match. -/
def globMatch (ps cs : List Char) : Bool :=
  globMatchGo (ps.length + cs.length + 1) ps cs

/-- The claims' resource-match relation: exactly equal, or the `*`-glob
matches the whole target. -/
def spec_matches_resource (policy_resource target_resource : String) : Bool :=
  policy_resource == target_resource ||
    globMatch policy_resource.data target_resource.data

/-- Pattern characters on which the engine's regex reading coincides with
the claims' glob reading: everything except the regex metacharacters and
the any-character `.`; the wildcard `*` itself is glob-safe. -/
def isGlobSafe (c : Char) : Bool := !(isReMeta c) && c != '.'

/-- The atoms a glob-safe pattern compiles to: each `*` a starred
any-character, each other character an unstarred literal. -/
def atomsOf : List Char → List ReAtom
  | [] => []
  | '*' :: cs => (ReBase.any, true) :: atomsOf cs
  | c :: cs => (reBaseOf c, false) :: atomsOf cs

/-- The claim's reading of "condition contains any literal whose string
value contains `guest`": a full traversal, unary operators included (unlike
the source's `_condition_allows_guest`). -/
def exprHasGuestLiteral : Expr → Bool
  | Expr.binaryOp _ l r _ => exprHasGuestLiteral l || exprHasGuestLiteral r
  | Expr.unaryOp _ e _ => exprHasGuestLiteral e
  | Expr.attr _ _ _ => false
  | Expr.literal v _ => strContains (strToLower (splValStr v)) "guest"

/-- The kind word, name and line of a definition statement. -/
def defOf : Statement → Option (String × String × Nat)
  | Statement.roleDef d => some ("role", d.name, d.line_number)
  | Statement.userDef d => some ("user", d.name, d.line_number)
  | Statement.resourceDef d => some ("resource", d.name, d.line_number)
  | Statement.policyRule _ => none

/-- The duplicate-definition message for one kind. -/
def dupMessage (kind name : String) : String :=
  "Duplicate " ++ kind ++ " definition: '" ++ name ++ "'"

/-- Is a statement a policy rule? -/
def isPolicyStatement : Statement → Bool
  | Statement.policyRule _ => true
  | _ => false

/-- The ordered pairs the nested conflict loops visit:
`(l[i], l[j])` for `i < j`. -/
def pairsOf {α : Type} : List α → List (α × α)
  | [] => []
  | x :: xs => xs.map (fun y => (x, y)) ++ pairsOf xs

/-- All pairs visited by `_phase_conflict_detection`: the per-resource
groups' ordered pairs, groups in first-occurrence order. -/
def groupPairs (policies : List PolicyData) : List (PolicyData × PolicyData) :=
  (policies.foldl addToGroups []).flatMap fun g => pairsOf g.2

/-- A compiled policy for the engine witnesses: one user, one resource, one
unconditioned ALLOW. -/
def cpW : CompiledPolicy :=
  { users := [{ name := "alice", properties := [("role", PyVal.str "Admin")] }]
    resources := [{ name := "DB", properties := [("path", PyVal.str "/data")] }]
    policies := [{ type := "ALLOW", actions := ["read"], resource := "DB" }] }

/-- A concrete evaluation context (as `check_access` would build one), used
by the condition-evaluation counterexample. -/
def ctxC2 : EvalContext :=
  build_eval_context "alice" (PyVal.str "Admin") "DB"
    { name := "DB", properties := [("path", PyVal.str "/data")] } {} {}

/-- `ROLE Guest { can: read }`. -/
def roleGuestDef : Statement :=
  Statement.roleDef
    { name := "Guest", properties := [("can", SplVal.list [SplVal.str "read"])], line_number := 1 }

/-- `RESOURCE DB { path: "/data" }`. -/
def resDBDef : Statement :=
  Statement.resourceDef
    { name := "DB", properties := [("path", SplVal.str "/data")], line_number := 2 }

/-- The condition `user.role == "Guest"` at line 3. -/
def condGuestEq : Expr :=
  Expr.binaryOp "==" (Expr.attr "user" "role" 3) (Expr.literal (SplVal.str "Guest") 3) 3

/-- `ALLOW action: delete ON RESOURCE: DB IF (user.role == "Guest")`. -/
def allowDeleteGuest : PolicyData :=
  { policy_type := "ALLOW", actions := ["delete"], resource := "DB"
    condition := some condGuestEq, line_number := 3 }

/-- Scenario C's program: the guest-delete grant. -/
def progC6 : Program :=
  [roleGuestDef, resDBDef, Statement.policyRule allowDeleteGuest]

/-- `DENY action: delete ON RESOURCE: DB IF (NOT (user.role == "Guest"))` —
the guest literal sits below a unary operator. -/
def denyDeleteNotGuest : PolicyData :=
  { policy_type := "DENY", actions := ["delete"], resource := "DB"
    condition := some (Expr.unaryOp "NOT" condGuestEq 3), line_number := 3 }

/-- The C10 counterexample program: a delete policy whose condition contains
the literal `"Guest"` under a `NOT`. -/
def progC10 : Program :=
  [roleGuestDef, resDBDef, Statement.policyRule denyDeleteNotGuest]

/-- `DENY action: delete ON RESOURCE: DB IF (user.role == "Guest")` — a
DENY that *protects* guests. -/
def denyDeleteGuest : PolicyData :=
  { policy_type := "DENY", actions := ["delete"], resource := "DB"
    condition := some condGuestEq, line_number := 3 }

/-- The witness program for the kind-independent guest-delete error. -/
def progC10w : Program :=
  [roleGuestDef, resDBDef, Statement.policyRule denyDeleteGuest]

/-- Two duplicate `Admin` role definitions (lines 1 and 7). -/
def progC7 : Program :=
  [Statement.roleDef { name := "Admin", properties := [], line_number := 1 },
   Statement.roleDef { name := "Admin", properties := [], line_number := 7 }]

/-- Scenario B's ALLOW policy (`ALLOW read ON DB IF user.role == "Dev"`). -/
def policyB1 : PolicyData :=
  { policy_type := "ALLOW", actions := ["read"], resource := "DB"
    condition := some (Expr.binaryOp "=="
      (Expr.attr "user" "role" 3) (Expr.literal (SplVal.str "Dev") 3) 3)
    line_number := 3 }

/-- Scenario B's DENY policy. -/
def policyB2 : PolicyData :=
  { policy_type := "DENY", actions := ["read"], resource := "DB"
    condition := some (Expr.binaryOp "=="
      (Expr.attr "user" "role" 4) (Expr.literal (SplVal.str "Dev") 4) 4)
    line_number := 4 }

/-- Two same-kind overlapping policies on one resource (both
`ALLOW read ON DB`, lines 3 and 4). -/
def progC5same : Program :=
  [resDBDef,
   Statement.policyRule { policy_type := "ALLOW", actions := ["read"], resource := "DB"
                          line_number := 3 },
   Statement.policyRule { policy_type := "ALLOW", actions := ["read"], resource := "DB"
                          line_number := 4 }]

/-- Scenario A's program: `ROLE Admin { can: * }` and
`RESOURCE DB { path: "/data" }`, no explicit policy. -/
def scenarioA : Program :=
  [Statement.roleDef { name := "Admin", properties := [("can", SplVal.str "*")], line_number := 1 },
   resDBDef]

end SPL

namespace SPL

/-! ## Theorems -/

/-- C3: the code generator's JSON output is never the claimed IR object
`{roles, users, resources, policies, metadata}` — for every program it is a
JSON *array* of per-statement records, which `PolicyEngine.__init__` (whose
`.get` calls need a dict) cannot consume. -/
theorem generate_json_is_array_not_ir_object :
    ∀ prog : Program, isJsonObj (generate_json prog) = false :=
  fun _ => rfl

/-- Helper: a non-policy statement contributes no policy record. -/
theorem jsonPolicyCount_cons (s : Statement) (rest : Program)
    (h : isPolicyStatement s = false) :
    jsonPolicyCount (generate_json (s :: rest)) = jsonPolicyCount (generate_json rest) := by
  cases s with
  | roleDef d => rfl
  | userDef d => rfl
  | resourceDef d => rfl
  | policyRule p => simp [isPolicyStatement] at h

/-- C4: the code generator synthesizes no policies — a program with zero
policy rules (role definitions or not) generates output with zero policy
records, so no role-only program yields the claimed
`ALLOW ... IF user.role == "<RoleName>"` policies. -/
theorem generate_json_no_policy_synthesis (prog : Program)
    (h : prog.all (fun s => !isPolicyStatement s) = true) :
    jsonPolicyCount (generate_json prog) = 0 := by
  induction prog with
  | nil => rfl
  | cons s rest ih =>
      simp only [List.all_cons, Bool.and_eq_true, Bool.not_eq_true'] at h
      rw [jsonPolicyCount_cons s rest h.1]
      exact ih h.2

/-- C4 witness: Scenario A's role-only program generates zero policy
records. -/
theorem generate_json_no_policy_synthesis_witness :
    jsonPolicyCount (generate_json scenarioA) = 0 :=
  generate_json_no_policy_synthesis scenarioA (by rfl)

/-- C8: every resolution miss of `check_access` — unknown user, unknown
resource, or a user without a (truthy) `role` property — returns the
fail-closed DENY decision naming the missing entity, with an empty
`matched_policies` list, without evaluating any policy. -/
theorem check_access_resolution_fail_closed
    (policy : CompiledPolicy) (username action resource_name : String)
    (context : CallerContext) (now : NowTime) :
    (indexGet policy.users username = none →
      check_access policy username action resource_name context now =
        { allowed := false
          reason := "User '" ++ username ++ "' not found"
          decision := "DENY"
          matched_policies := [] }) ∧
    (∀ user, indexGet policy.users username = some user →
      indexGet policy.resources resource_name = none →
      check_access policy username action resource_name context now =
        { allowed := false
          reason := "Resource '" ++ resource_name ++ "' not found"
          decision := "DENY"
          matched_policies := [] }) ∧
    (∀ user resource, indexGet policy.users username = some user →
      indexGet policy.resources resource_name = some resource →
      (List.lookup "role" user.properties = none ∨
        ∃ v, List.lookup "role" user.properties = some v ∧ pyTruthy v = false) →
      check_access policy username action resource_name context now =
        { allowed := false
          reason := "User '" ++ username ++ "' has no role assigned"
          decision := "DENY"
          matched_policies := [] }) := by
  refine ⟨fun hu => ?_, fun user hu hr => ?_, fun user resource hu hr hrole => ?_⟩
  · simp only [check_access, hu]
  · simp only [check_access, hu, hr]
  · rcases hrole with hnone | ⟨v, hv, hfalsy⟩
    · simp only [check_access, hu, hr, hnone]
    · simp only [check_access, hu, hr, hv, hfalsy, Bool.not_false, if_pos]

/-- C8 witness: an unindexed username is denied with the explanatory
reason. -/
theorem check_access_resolution_fail_closed_witness :
    check_access cpW "bob" "read" "DB" {} {} =
      { allowed := false
        reason := "User 'bob' not found"
        decision := "DENY"
        matched_policies := [] } :=
  (check_access_resolution_fail_closed cpW "bob" "read" "DB" {} {}).1 (by rfl)

/-- C2 (counterexample): a condition referencing an attribute namespace
absent from the evaluation context is *not* forced false as a whole —
`NOT unknown.attr` evaluates to `true` (the unknown reference alone is
replaced by `False`). -/
theorem evaluate_condition_unknown_not_whole_false :
    List.lookup "unknown" ctxC2 = none ∧
    evaluate_condition "NOT unknown.attr" ctxC2 = true :=
  ⟨rfl, rfl⟩

/-- C2 (amended): for every evaluation context (any contents of the five
namespaces the engine builds), an unknown attribute reference is replaced by
the boolean `False` and the condition is then evaluated with that
substitution — an equality comparison against it is false, while a negation
of it is true — and evaluation is total (every failure is caught as
`False`), never raising. -/
theorem evaluate_condition_unknown_reference_substituted
    (u t r d rsc : List (String × PyVal)) :
    evaluate_condition "unknown.attr == \"x\""
      [("user", u), ("time", t), ("request", r), ("device", d), ("resource", rsc)] = false ∧
    evaluate_condition "NOT unknown.attr"
      [("user", u), ("time", t), ("request", r), ("device", d), ("resource", rsc)] = true :=
  ⟨rfl, rfl⟩

end SPL

namespace SPL

/-- Helper: the policy-evaluation loop accumulates exactly the matching
policies (in order) and the two flags as existential checks over them. -/
theorem evalPolicies_spec (resource_name action : String) (ectx : EvalContext) :
    ∀ (ps : List PolicyIR) (m : List MatchedPolicy) (df af : Bool),
      evalPolicies resource_name action ectx (m, df, af) ps =
        (m ++ (ps.filter fun p => policyMatches p resource_name action ectx).map mkMatched,
         df || (ps.filter fun p => policyMatches p resource_name action ectx).any
                 (fun p => p.type == "DENY"),
         af || (ps.filter fun p => policyMatches p resource_name action ectx).any
                 (fun p => p.type != "DENY" && p.type == "ALLOW")) := by
  intro ps
  induction ps with
  | nil => intro m df af; simp [evalPolicies]
  | cons p rest ih =>
      intro m df af
      by_cases h : policyMatches p resource_name action ectx
      · simp [evalPolicies, h, ih, List.filter_cons_of_pos, Bool.or_assoc,
          List.append_assoc]
      · simp only [evalPolicies, h, if_neg, Bool.false_eq_true, not_false_iff,
          List.filter_cons_of_neg, ih]

/-- Helper: an `ALLOW`-typed policy is automatically not `DENY`-typed, so
the loop's `elif` flag agrees with a plain `ALLOW` check. -/
theorem any_allow_elim (ps : List PolicyIR) :
    ps.any (fun p => p.type != "DENY" && p.type == "ALLOW") =
      ps.any (fun p => p.type == "ALLOW") := by
  induction ps with
  | nil => rfl
  | cons p rest ih =>
      simp only [List.any_cons, ih]
      by_cases h : p.type == "ALLOW"
      · have : p.type = "ALLOW" := by
          simpa using h
        simp [this]
      · simp only [h, Bool.and_false, Bool.false_or]

/-- C1: when the user, resource and (truthy) role all resolve,
`check_access` returns exactly the deny-overrides combination over the
matching policies: any matching DENY gives the explicit-DENY decision, else
any matching ALLOW gives ALLOW, else the default-deny decision, and
`matched_policies` lists exactly the policies that matched, in order. -/
theorem check_access_combination
    (policy : CompiledPolicy) (username action resource_name : String)
    (context : CallerContext) (now : NowTime)
    (user resource : EntityIR) (role : PyVal)
    (hu : indexGet policy.users username = some user)
    (hr : indexGet policy.resources resource_name = some resource)
    (hrole : List.lookup "role" user.properties = some role)
    (htruthy : pyTruthy role = true) :
    (check_access policy username action resource_name context now).matched_policies =
      ((policy.policies.filter fun p => policyMatches p resource_name action
          (build_eval_context username role resource_name resource context now)).map
        mkMatched) ∧
    ((policy.policies.filter fun p => policyMatches p resource_name action
        (build_eval_context username role resource_name resource context now)).any
          (fun p => p.type == "DENY") = true →
      (check_access policy username action resource_name context now).decision = "DENY" ∧
      (check_access policy username action resource_name context now).allowed = false ∧
      (check_access policy username action resource_name context now).reason =
        "Explicit DENY policy matched") ∧
    ((policy.policies.filter fun p => policyMatches p resource_name action
        (build_eval_context username role resource_name resource context now)).any
          (fun p => p.type == "DENY") = false →
      (policy.policies.filter fun p => policyMatches p resource_name action
        (build_eval_context username role resource_name resource context now)).any
          (fun p => p.type == "ALLOW") = true →
      (check_access policy username action resource_name context now).decision = "ALLOW" ∧
      (check_access policy username action resource_name context now).allowed = true) ∧
    ((policy.policies.filter fun p => policyMatches p resource_name action
        (build_eval_context username role resource_name resource context now)).any
          (fun p => p.type == "DENY") = false →
      (policy.policies.filter fun p => policyMatches p resource_name action
        (build_eval_context username role resource_name resource context now)).any
          (fun p => p.type == "ALLOW") = false →
      (check_access policy username action resource_name context now).decision = "DENY" ∧
      (check_access policy username action resource_name context now).allowed = false ∧
      (check_access policy username action resource_name context now).reason =
        "No matching policies (default deny)") := by
  have hun : check_access policy username action resource_name context now =
      (let ectx := build_eval_context username role resource_name resource context now
       let res := evalPolicies resource_name action ectx ([], false, false) policy.policies
       if res.2.1 then
         { allowed := false
           reason := "Explicit DENY policy matched"
           decision := "DENY"
           matched_policies := res.1
           context := some ectx }
       else if res.2.2 then
         { allowed := true
           reason := "ALLOW policy matched"
           decision := "ALLOW"
           matched_policies := res.1
           context := some ectx }
       else
         { allowed := false
           reason := "No matching policies (default deny)"
           decision := "DENY"
           matched_policies := res.1
           context := some ectx }) := by
    simp only [check_access, hu, hr, hrole, htruthy, Bool.not_true, Bool.false_eq_true,
      if_neg, not_false_iff]
  rw [hun]
  simp only [evalPolicies_spec, List.nil_append, Bool.false_or, any_allow_elim]
  refine ⟨?_, fun hd => ?_, fun hd ha => ?_, fun hd ha => ?_⟩
  · split
    · rfl
    · split <;> rfl
  · simp [hd]
  · simp [hd, ha]
  · simp [hd, ha]

/-- C1 witness: with a resolving user/resource/role and one unconditioned
matching ALLOW policy, the decision is ALLOW and the match list has exactly
that policy. -/
theorem check_access_combination_witness :
    (check_access cpW "alice" "read" "DB" {} {}).decision = "ALLOW" ∧
    (check_access cpW "alice" "read" "DB" {} {}).matched_policies =
      [mkMatched { type := "ALLOW", actions := ["read"], resource := "DB" }] := by
  have h := check_access_combination cpW "alice" "read" "DB" {} {}
    { name := "alice", properties := [("role", PyVal.str "Admin")] }
    { name := "DB", properties := [("path", PyVal.str "/data")] }
    (PyVal.str "Admin") rfl rfl rfl rfl
  exact ⟨(h.2.2.1 rfl rfl).1, h.1⟩

end SPL

namespace SPL

/-- Helper: `check_role_comparison` touches only
`role_references_in_conditions`. -/
theorem check_role_comparison_fields (st : AnalyzerState) (op : String)
    (l r : Expr) (line : Nat) :
    (check_role_comparison st op l r line).errors = st.errors ∧
    (check_role_comparison st op l r line).roles = st.roles ∧
    (check_role_comparison st op l r line).users = st.users ∧
    (check_role_comparison st op l r line).resources = st.resources ∧
    (check_role_comparison st op l r line).guest_delete_permissions =
      st.guest_delete_permissions := by
  unfold check_role_comparison
  split <;> exact ⟨rfl, rfl, rfl, rfl, rfl⟩

/-- Helper: the condition visitors touch only warnings and
role references. -/
theorem visitExpr_fields (e : Expr) : ∀ st : AnalyzerState,
    (visitExpr st e).errors = st.errors ∧
    (visitExpr st e).roles = st.roles ∧
    (visitExpr st e).users = st.users ∧
    (visitExpr st e).resources = st.resources ∧
    (visitExpr st e).guest_delete_permissions = st.guest_delete_permissions := by
  induction e with
  | binaryOp op l r line ihl ihr =>
      intro st
      obtain ⟨e1, r1, u1, s1, g1⟩ := ihl st
      obtain ⟨e2, r2, u2, s2, g2⟩ := ihr (visitExpr st l)
      by_cases hop : (op == "==" || op == "!=") = true
      · obtain ⟨e3, r3, u3, s3, g3⟩ :=
          check_role_comparison_fields (visitExpr (visitExpr st l) r) op l r line
        simp only [visitExpr, hop, if_true]
        exact ⟨by rw [e3, e2, e1], by rw [r3, r2, r1], by rw [u3, u2, u1],
               by rw [s3, s2, s1], by rw [g3, g2, g1]⟩
      · simp only [visitExpr, hop, if_false, Bool.false_eq_true]
        exact ⟨by rw [e2, e1], by rw [r2, r1], by rw [u2, u1],
               by rw [s2, s1], by rw [g2, g1]⟩
  | unaryOp op e line ih => intro st; exact ih st
  | attr o a line =>
      intro st
      simp only [visitExpr]
      split
      · split <;> exact ⟨rfl, rfl, rfl, rfl, rfl⟩
      · exact ⟨rfl, rfl, rfl, rfl, rfl⟩
  | literal v line => intro st; exact ⟨rfl, rfl, rfl, rfl, rfl⟩

end SPL

namespace SPL

/-- Helper: visiting a role definition leaves the guest-delete record
unchanged. -/
theorem visit_RoleNode_guest (st : AnalyzerState) (d : DefData) :
    (visit_RoleNode st d).guest_delete_permissions = st.guest_delete_permissions := by
  unfold visit_RoleNode
  split
  · rfl
  · cases hcan : List.lookup "can" d.properties with
    | none => simp [hcan]
    | some v =>
        cases v <;> simp [hcan] <;> split <;> rfl

/-- Helper: visiting a policy appends to (never rewrites) the guest-delete
record, and appends exactly the policy itself when it grants `delete` under
a guest-mentioning condition. -/
theorem visit_PolicyNode_guest (st : AnalyzerState) (p : PolicyData) :
    ∃ δ, (visit_PolicyNode st p).guest_delete_permissions =
      st.guest_delete_permissions ++ δ ∧
      (p.actions.contains "delete" = true →
        ∀ c, p.condition = some c → condition_allows_guest c = true → p ∈ δ) := by
  cases hc : p.condition with
  | none =>
      refine ⟨[], ?_, ?_⟩
      · simp only [visit_PolicyNode, hc]
        split <;> simp
      · intro _ c hcs; cases hcs
  | some c =>
      by_cases hguest : (condition_allows_guest c && p.actions.contains "delete") = true
      · refine ⟨[p], ?_, fun _ _ _ _ => List.mem_singleton.mpr rfl⟩
        simp only [visit_PolicyNode, hc]
        rw [(visitExpr_fields c _).2.2.2.2]
        simp only [hguest, if_true]
        split <;> rfl
      · refine ⟨[], ?_, ?_⟩
        · simp only [visit_PolicyNode, hc]
          rw [(visitExpr_fields c _).2.2.2.2]
          simp only [hguest, if_false, Bool.false_eq_true]
          split <;> simp
        · intro hdel c' hcs hcg
          cases hcs
          rw [Bool.and_eq_true] at hguest
          exact absurd ⟨hcg, hdel⟩ hguest

end SPL

namespace SPL

/-- Helper: user definitions leave the guest-delete record unchanged. -/
theorem visit_UserNode_guest (st : AnalyzerState) (d : DefData) :
    (visit_UserNode st d).guest_delete_permissions = st.guest_delete_permissions := by
  unfold visit_UserNode
  split <;> rfl

/-- Helper: resource definitions leave the guest-delete record unchanged. -/
theorem visit_ResourceNode_guest (st : AnalyzerState) (d : DefData) :
    (visit_ResourceNode st d).guest_delete_permissions = st.guest_delete_permissions := by
  unfold visit_ResourceNode
  split <;> rfl

/-- Helper: every statement only appends to the guest-delete record. -/
theorem visitStatement_guest (st : AnalyzerState) (s : Statement) :
    ∃ δ, (visitStatement st s).guest_delete_permissions =
      st.guest_delete_permissions ++ δ := by
  cases s with
  | roleDef d => exact ⟨[], by rw [visitStatement, visit_RoleNode_guest]; simp⟩
  | userDef d => exact ⟨[], by rw [visitStatement, visit_UserNode_guest]; simp⟩
  | resourceDef d => exact ⟨[], by rw [visitStatement, visit_ResourceNode_guest]; simp⟩
  | policyRule p =>
      obtain ⟨δ, hδ, _⟩ := visit_PolicyNode_guest st p
      exact ⟨δ, hδ⟩

/-- Helper: membership in the guest-delete record survives the whole
collection fold. -/
theorem phase_collection_guest_mono (stmts : Program) :
    ∀ (st : AnalyzerState) (x : PolicyData),
      x ∈ st.guest_delete_permissions →
      x ∈ (phase_collection st stmts).guest_delete_permissions := by
  induction stmts with
  | nil => intro st x hx; exact hx
  | cons s rest ih =>
      intro st x hx
      obtain ⟨δ, hδ⟩ := visitStatement_guest st s
      exact ih (visitStatement st s) x (by rw [hδ]; exact List.mem_append_left δ hx)

/-- Helper: a delete-granting, guest-conditioned policy of the program ends
up in the collected guest-delete record. -/
theorem phase_collection_guest_mem (stmts : Program) :
    ∀ (st : AnalyzerState) (p : PolicyData) (c : Expr),
      Statement.policyRule p ∈ stmts →
      p.actions.contains "delete" = true →
      p.condition = some c →
      condition_allows_guest c = true →
      p ∈ (phase_collection st stmts).guest_delete_permissions := by
  induction stmts with
  | nil => intro st p c hmem; cases hmem
  | cons s rest ih =>
      intro st p c hmem hdel hcond hguest
      rcases List.mem_cons.mp hmem with hhead | htail
      · subst hhead
        obtain ⟨δ, hδ, hgain⟩ := visit_PolicyNode_guest st p
        have hp : p ∈ (visitStatement st (Statement.policyRule p)).guest_delete_permissions := by
          show p ∈ (visit_PolicyNode st p).guest_delete_permissions
          rw [hδ]
          exact List.mem_append_right _ (hgain hdel c hcond hguest)
        exact phase_collection_guest_mono rest _ p hp
      · exact ih (visitStatement st s) p c htail hdel hcond hguest

end SPL

namespace SPL

/-- Helper: a fold whose step preserves the guest-delete record preserves
it. -/
theorem foldl_guest_eq {α : Type} (f : AnalyzerState → α → AnalyzerState)
    (hf : ∀ st a, (f st a).guest_delete_permissions = st.guest_delete_permissions) :
    ∀ (l : List α) (st : AnalyzerState),
      (List.foldl f st l).guest_delete_permissions = st.guest_delete_permissions := by
  intro l
  induction l with
  | nil => intro st; rfl
  | cons a rest ih => intro st; rw [List.foldl_cons, ih, hf]

/-- Helper: a fold whose step only appends errors only appends errors. -/
theorem foldl_errors_ext {α : Type} (f : AnalyzerState → α → AnalyzerState)
    (hf : ∀ st a, ∃ δ, (f st a).errors = st.errors ++ δ) :
    ∀ (l : List α) (st : AnalyzerState),
      ∃ δ, (List.foldl f st l).errors = st.errors ++ δ := by
  intro l
  induction l with
  | nil => intro st; exact ⟨[], by simp⟩
  | cons a rest ih =>
      intro st
      obtain ⟨δ₁, h₁⟩ := hf st a
      obtain ⟨δ₂, h₂⟩ := ih (f st a)
      exact ⟨δ₁ ++ δ₂, by rw [List.foldl_cons, h₂, h₁, List.append_assoc]⟩

/-- Helper: the user-role validation leaves the guest-delete record
unchanged. -/
theorem validateUserRoles_guest (st : AnalyzerState) :
    (validateUserRoles st).guest_delete_permissions = st.guest_delete_permissions := by
  unfold validateUserRoles
  apply foldl_guest_eq
  intro st' a
  dsimp only
  split
  · rfl
  · split <;> rfl

/-- Helper: the policy-resource validation leaves the guest-delete record
unchanged. -/
theorem validatePolicyResources_guest (st : AnalyzerState) :
    (validatePolicyResources st).guest_delete_permissions = st.guest_delete_permissions := by
  unfold validatePolicyResources
  apply foldl_guest_eq
  intro st' a
  dsimp only
  split
  · split <;> rfl
  · split
    · split <;> rfl
    · rfl

/-- Helper: the condition-role-reference validation leaves the guest-delete
record unchanged. -/
theorem validateRoleRefs_guest (st : AnalyzerState) :
    (validateRoleRefs st).guest_delete_permissions = st.guest_delete_permissions := by
  unfold validateRoleRefs
  apply foldl_guest_eq
  intro st' a
  dsimp only
  split <;> rfl

/-- Helper: phase 2 leaves the guest-delete record unchanged. -/
theorem phase_validation_guest (st : AnalyzerState) :
    (phase_validation st).guest_delete_permissions = st.guest_delete_permissions := by
  unfold phase_validation
  rw [validateRoleRefs_guest, validatePolicyResources_guest, validateUserRoles_guest]

end SPL

namespace SPL

/-- Helper: phase 3 touches only the conflicts list. -/
theorem phase_conflict_detection_guest (st : AnalyzerState) :
    (phase_conflict_detection st).guest_delete_permissions =
      st.guest_delete_permissions := rfl

/-- Helper: phase 3 leaves the errors unchanged. -/
theorem phase_conflict_detection_errors (st : AnalyzerState) :
    (phase_conflict_detection st).errors = st.errors := rfl

/-- Helper: the escalation scan only appends warnings. -/
theorem detectPrivilegeEscalation_errors (st : AnalyzerState) :
    (detectPrivilegeEscalation st).errors = st.errors := by
  unfold detectPrivilegeEscalation
  generalize st.policies = ps
  induction ps generalizing st with
  | nil => rfl
  | cons p rest ih =>
      rw [List.foldl_cons]
      rw [ih]
      split <;> rfl

/-- Helper: phase 4 appends exactly one blocking error per collected
guest-delete policy (after the wildcard warnings, before the
overly-permissive warnings and the escalation scan). -/
theorem phase_security_analysis_errors (st : AnalyzerState) :
    (phase_security_analysis st).errors =
      st.errors ++ st.guest_delete_permissions.map (fun (p : PolicyData) =>
        ({ message := "CRITICAL SECURITY RISK: Policy grants 'delete' to Guest role"
           line_number := some p.line_number
           error_type := "RISK" } : SemanticError)) := by
  unfold phase_security_analysis
  rw [detectPrivilegeEscalation_errors]

/-- Helper: every statement visit only appends to the errors list. -/
theorem visitStatement_errors_ext (st : AnalyzerState) (s : Statement) :
    ∃ δ, (visitStatement st s).errors = st.errors ++ δ := by
  cases s with
  | roleDef d =>
      show ∃ δ, (visit_RoleNode st d).errors = st.errors ++ δ
      unfold visit_RoleNode
      split
      · exact ⟨_, rfl⟩
      · cases hcan : List.lookup "can" d.properties with
        | none => simp [hcan]
        | some v =>
            cases v <;> simp [hcan] <;> (try split) <;> simp
  | userDef d =>
      show ∃ δ, (visit_UserNode st d).errors = st.errors ++ δ
      unfold visit_UserNode
      split
      · exact ⟨_, rfl⟩
      · exact ⟨[], by simp⟩
  | resourceDef d =>
      show ∃ δ, (visit_ResourceNode st d).errors = st.errors ++ δ
      unfold visit_ResourceNode
      split
      · exact ⟨_, rfl⟩
      · exact ⟨[], by simp⟩
  | policyRule p =>
      show ∃ δ, (visit_PolicyNode st p).errors = st.errors ++ δ
      refine ⟨[], ?_⟩
      cases hc : p.condition with
      | none =>
          simp only [visit_PolicyNode, hc]
          split <;> simp
      | some c =>
          simp only [visit_PolicyNode, hc]
          rw [(visitExpr_fields c _).1]
          split <;> (split <;> simp)

/-- Helper: the collection fold only appends to the errors list. -/
theorem phase_collection_errors_ext (stmts : Program) :
    ∀ st : AnalyzerState, ∃ δ, (phase_collection st stmts).errors = st.errors ++ δ :=
  foldl_errors_ext visitStatement visitStatement_errors_ext stmts

/-- Helper: the user-role validation only appends to the errors list. -/
theorem validateUserRoles_errors_ext (st : AnalyzerState) :
    ∃ δ, (validateUserRoles st).errors = st.errors ++ δ := by
  unfold validateUserRoles
  apply foldl_errors_ext
  intro st' a
  try dsimp only
  split
  · exact ⟨[], by simp⟩
  · split
    · exact ⟨[], by simp⟩
    · exact ⟨_, rfl⟩

/-- Helper: the policy-resource validation only appends to the errors
list. -/
theorem validatePolicyResources_errors_ext (st : AnalyzerState) :
    ∃ δ, (validatePolicyResources st).errors = st.errors ++ δ := by
  unfold validatePolicyResources
  apply foldl_errors_ext
  intro st' a
  try dsimp only
  split
  · split
    · exact ⟨_, rfl⟩
    · exact ⟨[], by simp⟩
  · split
    · split
      · exact ⟨[], by simp⟩
      · exact ⟨[], by simp⟩
    · exact ⟨[], by simp⟩

/-- Helper: the role-reference validation only appends to the errors
list. -/
theorem validateRoleRefs_errors_ext (st : AnalyzerState) :
    ∃ δ, (validateRoleRefs st).errors = st.errors ++ δ := by
  unfold validateRoleRefs
  apply foldl_errors_ext
  intro st' a
  try dsimp only
  split
  · exact ⟨[], by simp⟩
  · exact ⟨_, rfl⟩

/-- Helper: phase 2 only appends to the errors list. -/
theorem phase_validation_errors_ext (st : AnalyzerState) :
    ∃ δ, (phase_validation st).errors = st.errors ++ δ := by
  obtain ⟨δ₁, h₁⟩ := validateUserRoles_errors_ext st
  obtain ⟨δ₂, h₂⟩ := validatePolicyResources_errors_ext (validateUserRoles st)
  obtain ⟨δ₃, h₃⟩ := validateRoleRefs_errors_ext (validatePolicyResources (validateUserRoles st))
  refine ⟨δ₁ ++ δ₂ ++ δ₃, ?_⟩
  show (validateRoleRefs (validatePolicyResources (validateUserRoles st))).errors = _
  rw [h₃, h₂, h₁]
  simp [List.append_assoc]

end SPL

namespace SPL

/-- Helper: a `delete`-granting policy whose condition the analyzer's guest
scan flags yields the blocking critical error, whatever the policy kind. -/
theorem guest_delete_error_core (prog : Program) (p : PolicyData) (c : Expr)
    (hmem : Statement.policyRule p ∈ prog)
    (hdel : p.actions.contains "delete" = true)
    (hcond : p.condition = some c)
    (hguest : condition_allows_guest c = true) :
    ({ message := "CRITICAL SECURITY RISK: Policy grants 'delete' to Guest role"
       line_number := some p.line_number
       error_type := "RISK" } : SemanticError) ∈ (analyze prog).errors ∧
    (analyze prog).success = false := by
  have hp1 : p ∈ (phase_collection {} prog).guest_delete_permissions :=
    phase_collection_guest_mem prog {} p c hmem hdel hcond hguest
  have hp2 : p ∈ (phase_validation (phase_collection {} prog)).guest_delete_permissions := by
    rw [phase_validation_guest]; exact hp1
  have hp3 : p ∈ (phase_conflict_detection (phase_validation
      (phase_collection {} prog))).guest_delete_permissions := by
    rw [phase_conflict_detection_guest]; exact hp2
  have herr : ({ message := "CRITICAL SECURITY RISK: Policy grants 'delete' to Guest role"
                 line_number := some p.line_number
                 error_type := "RISK" } : SemanticError) ∈
      (phase_security_analysis (phase_conflict_detection (phase_validation
        (phase_collection {} prog)))).errors := by
    rw [phase_security_analysis_errors]
    exact List.mem_append_right _ (List.mem_map_of_mem _ hp3)
  refine ⟨herr, ?_⟩
  have hne : (phase_security_analysis (phase_conflict_detection (phase_validation
      (phase_collection {} prog)))).errors ≠ [] := List.ne_nil_of_mem herr
  show (phase_security_analysis (phase_conflict_detection (phase_validation
      (phase_collection {} prog)))).errors.isEmpty = false
  cases hE : (phase_security_analysis (phase_conflict_detection (phase_validation
      (phase_collection {} prog)))).errors with
  | nil => exact absurd hE hne
  | cons a l => rfl

/-- C6: a program with an ALLOW policy granting `delete` under a condition
restricting to a role name containing "guest" (such as
`user.role == "Guest"`) gets the blocking critical security error: it is
recorded in the errors list, which is therefore non-empty, and the analysis
result has `success = false`. -/
theorem allow_delete_guest_blocks (prog : Program) (p : PolicyData)
    (s : String) (lineA lineL lineB : Nat)
    (hmem : Statement.policyRule p ∈ prog)
    (htype : p.policy_type = "ALLOW")
    (hdel : p.actions.contains "delete" = true)
    (hcond : p.condition = some (Expr.binaryOp "=="
      (Expr.attr "user" "role" lineA) (Expr.literal (SplVal.str s) lineL) lineB))
    (hguest : strContains (strToLower s) "guest" = true) :
    (analyze prog).success = false ∧
    (analyze prog).errors ≠ [] ∧
    ({ message := "CRITICAL SECURITY RISK: Policy grants 'delete' to Guest role"
       line_number := some p.line_number
       error_type := "RISK" } : SemanticError) ∈ (analyze prog).errors := by
  have hcg : condition_allows_guest (Expr.binaryOp "=="
      (Expr.attr "user" "role" lineA) (Expr.literal (SplVal.str s) lineL) lineB) = true := by
    simp [condition_allows_guest, splValStr, hguest]
  obtain ⟨hmemE, hsucc⟩ := guest_delete_error_core prog p _ hmem hdel hcond hcg
  exact ⟨hsucc, List.ne_nil_of_mem hmemE, hmemE⟩

/-- C6 witness: Scenario C's program (`ALLOW delete ON DB IF
user.role == "Guest"`) fails analysis. -/
theorem allow_delete_guest_blocks_witness :
    (analyze progC6).success = false :=
  (allow_delete_guest_blocks progC6 allowDeleteGuest "Guest" 3 3 3
    (List.mem_cons_of_mem _ (List.mem_cons_of_mem _ (List.mem_cons_self _ _)))
    rfl rfl rfl rfl).1

/-- C10 (amended): for every analyzed policy granting `delete` whose
condition contains — reachable through *binary* operations only, the way
`_condition_allows_guest` traverses — a literal containing "guest"
case-insensitively, the blocking critical error is recorded regardless of
the policy's kind (a DENY policy included), so the result has
`success = false`. -/
theorem guest_delete_any_kind_blocks (prog : Program) (p : PolicyData) (c : Expr)
    (hmem : Statement.policyRule p ∈ prog)
    (hdel : p.actions.contains "delete" = true)
    (hcond : p.condition = some c)
    (hguest : condition_allows_guest c = true) :
    (analyze prog).success = false ∧
    ({ message := "CRITICAL SECURITY RISK: Policy grants 'delete' to Guest role"
       line_number := some p.line_number
       error_type := "RISK" } : SemanticError) ∈ (analyze prog).errors := by
  obtain ⟨hmemE, hsucc⟩ := guest_delete_error_core prog p c hmem hdel hcond hguest
  exact ⟨hsucc, hmemE⟩

/-- C10 witness: a DENY-kind guest-delete policy also blocks analysis. -/
theorem guest_delete_any_kind_blocks_witness :
    (analyze progC10w).success = false :=
  (guest_delete_any_kind_blocks progC10w denyDeleteGuest condGuestEq
    (List.mem_cons_of_mem _ (List.mem_cons_of_mem _ (List.mem_cons_self _ _)))
    rfl rfl rfl).1

/-- C10 (counterexample): a policy whose condition contains a literal with
"guest" (case-insensitively) *below a unary operator* — here
`NOT (user.role == "Guest")` on a delete-granting policy — is missed by the
analyzer: the program passes with `success = true`, contradicting the claim
that any such literal triggers the blocking error. -/
theorem guest_literal_under_unary_missed :
    exprHasGuestLiteral (Expr.unaryOp "NOT" condGuestEq 3) = true ∧
    denyDeleteNotGuest.actions.contains "delete" = true ∧
    (analyze progC10).success = true :=
  ⟨rfl, rfl, rfl⟩

end SPL

namespace SPL

/-- Helper: association lookup succeeds on an extended list. -/
theorem lookup_append_left {β : Type} (k : String) (l l' : List (String × β)) (v : β)
    (h : List.lookup k l = some v) : List.lookup k (l ++ l') = some v := by
  induction l with
  | nil => cases h
  | cons a rest ih =>
      rw [List.cons_append]
      rw [List.lookup] at h ⊢
      by_cases hk : (k == a.1) = true
      · simpa [hk] using h
      · have hk' : (k == a.1) = false := by simpa using hk
        simp only [hk'] at h ⊢
        exact ih h

/-- Helper: a lookup that succeeds keeps succeeding on an extended list. -/
theorem lookup_isSome_append {β : Type} (k : String) (l l' : List (String × β))
    (h : (List.lookup k l).isSome = true) :
    (List.lookup k (l ++ l')).isSome = true := by
  obtain ⟨v, hv⟩ := Option.isSome_iff_exists.mp h
  rw [lookup_append_left k l l' v hv]
  rfl

/-- Helper: a key freshly appended to an association list is found. -/
theorem lookup_append_self {β : Type} (k : String) (l : List (String × β)) (v : β) :
    (List.lookup k (l ++ [(k, v)])).isSome = true := by
  induction l with
  | nil => simp [List.lookup]
  | cons a rest ih =>
      rw [List.cons_append, List.lookup]
      by_cases hk : (k == a.1) = true
      · simp [hk]
      · have hk' : (k == a.1) = false := by simpa using hk
        simp only [hk']
        exact ih

/-- Helper: every statement only appends to the three definition maps. -/
theorem visitStatement_maps_ext (st : AnalyzerState) (s : Statement) :
    (∃ δ, (visitStatement st s).roles = st.roles ++ δ) ∧
    (∃ δ, (visitStatement st s).users = st.users ++ δ) ∧
    (∃ δ, (visitStatement st s).resources = st.resources ++ δ) := by
  cases s with
  | roleDef d =>
      refine ⟨?_, ⟨[], ?_⟩, ⟨[], ?_⟩⟩
      · show ∃ δ, (visit_RoleNode st d).roles = st.roles ++ δ
        unfold visit_RoleNode
        split
        · exact ⟨[], by simp⟩
        · cases hcan : List.lookup "can" d.properties with
          | none => exact ⟨[(d.name, d)], by simp [hcan]⟩
          | some v =>
              refine ⟨[(d.name, d)], ?_⟩
              cases v <;> simp [hcan] <;> split <;> rfl
      · show (visit_RoleNode st d).users = st.users ++ []
        unfold visit_RoleNode
        split
        · simp
        · cases hcan : List.lookup "can" d.properties with
          | none => simp [hcan]
          | some v => cases v <;> simp [hcan] <;> split <;> rfl
      · show (visit_RoleNode st d).resources = st.resources ++ []
        unfold visit_RoleNode
        split
        · simp
        · cases hcan : List.lookup "can" d.properties with
          | none => simp [hcan]
          | some v => cases v <;> simp [hcan] <;> split <;> rfl
  | userDef d =>
      refine ⟨⟨[], ?_⟩, ?_, ⟨[], ?_⟩⟩
      · show (visit_UserNode st d).roles = st.roles ++ []
        unfold visit_UserNode; split <;> simp
      · show ∃ δ, (visit_UserNode st d).users = st.users ++ δ
        unfold visit_UserNode
        split
        · exact ⟨[], by simp⟩
        · exact ⟨[(d.name, d)], rfl⟩
      · show (visit_UserNode st d).resources = st.resources ++ []
        unfold visit_UserNode; split <;> simp
  | resourceDef d =>
      refine ⟨⟨[], ?_⟩, ⟨[], ?_⟩, ?_⟩
      · show (visit_ResourceNode st d).roles = st.roles ++ []
        unfold visit_ResourceNode; split <;> simp
      · show (visit_ResourceNode st d).users = st.users ++ []
        unfold visit_ResourceNode; split <;> simp
      · show ∃ δ, (visit_ResourceNode st d).resources = st.resources ++ δ
        unfold visit_ResourceNode
        split
        · exact ⟨[], by simp⟩
        · exact ⟨[(d.name, d)], rfl⟩
  | policyRule p =>
      have hr : (visit_PolicyNode st p).roles = st.roles := by
        cases hc : p.condition with
        | none => simp only [visit_PolicyNode, hc]; split <;> rfl
        | some c =>
            simp only [visit_PolicyNode, hc]
            rw [(visitExpr_fields c _).2.1]
            split <;> (split <;> rfl)
      have hu : (visit_PolicyNode st p).users = st.users := by
        cases hc : p.condition with
        | none => simp only [visit_PolicyNode, hc]; split <;> rfl
        | some c =>
            simp only [visit_PolicyNode, hc]
            rw [(visitExpr_fields c _).2.2.1]
            split <;> (split <;> rfl)
      have hs : (visit_PolicyNode st p).resources = st.resources := by
        cases hc : p.condition with
        | none => simp only [visit_PolicyNode, hc]; split <;> rfl
        | some c =>
            simp only [visit_PolicyNode, hc]
            rw [(visitExpr_fields c _).2.2.2.1]
            split <;> (split <;> rfl)
      exact ⟨⟨[], by rw [List.append_nil]; exact hr⟩,
             ⟨[], by rw [List.append_nil]; exact hu⟩,
             ⟨[], by rw [List.append_nil]; exact hs⟩⟩

end SPL

namespace SPL

/-- Helper: after visiting a role definition its name is registered (or was
already). -/
theorem visit_RoleNode_lookup_self (st : AnalyzerState) (d : DefData) :
    (List.lookup d.name (visit_RoleNode st d).roles).isSome = true := by
  unfold visit_RoleNode
  split
  · rename_i h
    exact h
  · cases hcan : List.lookup "can" d.properties with
    | none =>
        simp only [hcan]
        exact lookup_append_self d.name st.roles d
    | some v =>
        cases v <;> simp only [hcan] <;> (try split) <;>
          exact lookup_append_self d.name st.roles d

/-- Helper: after visiting a user definition its name is registered. -/
theorem visit_UserNode_lookup_self (st : AnalyzerState) (d : DefData) :
    (List.lookup d.name (visit_UserNode st d).users).isSome = true := by
  unfold visit_UserNode
  split
  · rename_i h
    exact h
  · exact lookup_append_self d.name st.users d

/-- Helper: after visiting a resource definition its name is registered. -/
theorem visit_ResourceNode_lookup_self (st : AnalyzerState) (d : DefData) :
    (List.lookup d.name (visit_ResourceNode st d).resources).isSome = true := by
  unfold visit_ResourceNode
  split
  · rename_i h
    exact h
  · exact lookup_append_self d.name st.resources d

/-- Helper: registered names stay registered across the collection fold. -/
theorem phase_collection_lookup_mono (stmts : Program) :
    ∀ (st : AnalyzerState) (k : String),
      ((List.lookup k st.roles).isSome = true →
        (List.lookup k (phase_collection st stmts).roles).isSome = true) ∧
      ((List.lookup k st.users).isSome = true →
        (List.lookup k (phase_collection st stmts).users).isSome = true) ∧
      ((List.lookup k st.resources).isSome = true →
        (List.lookup k (phase_collection st stmts).resources).isSome = true) := by
  induction stmts with
  | nil => intro st k; exact ⟨id, id, id⟩
  | cons s rest ih =>
      intro st k
      obtain ⟨⟨δr, hr⟩, ⟨δu, hu⟩, ⟨δs, hs⟩⟩ := visitStatement_maps_ext st s
      refine ⟨fun h => ?_, fun h => ?_, fun h => ?_⟩
      · exact (ih (visitStatement st s) k).1 (by rw [hr]; exact lookup_isSome_append _ _ _ h)
      · exact (ih (visitStatement st s) k).2.1 (by rw [hu]; exact lookup_isSome_append _ _ _ h)
      · exact (ih (visitStatement st s) k).2.2 (by rw [hs]; exact lookup_isSome_append _ _ _ h)

/-- Helper: visiting a role definition whose name is taken records the
duplicate error. -/
theorem visit_RoleNode_dup (st : AnalyzerState) (d : DefData)
    (h : (List.lookup d.name st.roles).isSome = true) :
    ({ message := "Duplicate role definition: '" ++ d.name ++ "'"
       line_number := some d.line_number
       error_type := "ERROR" } : SemanticError) ∈ (visit_RoleNode st d).errors := by
  unfold visit_RoleNode
  rw [if_pos h]
  exact List.mem_append_right _ (List.mem_singleton.mpr rfl)

/-- Helper: visiting a user definition whose name is taken records the
duplicate error. -/
theorem visit_UserNode_dup (st : AnalyzerState) (d : DefData)
    (h : (List.lookup d.name st.users).isSome = true) :
    ({ message := "Duplicate user definition: '" ++ d.name ++ "'"
       line_number := some d.line_number
       error_type := "ERROR" } : SemanticError) ∈ (visit_UserNode st d).errors := by
  unfold visit_UserNode
  rw [if_pos h]
  exact List.mem_append_right _ (List.mem_singleton.mpr rfl)

/-- Helper: visiting a resource definition whose name is taken records the
duplicate error. -/
theorem visit_ResourceNode_dup (st : AnalyzerState) (d : DefData)
    (h : (List.lookup d.name st.resources).isSome = true) :
    ({ message := "Duplicate resource definition: '" ++ d.name ++ "'"
       line_number := some d.line_number
       error_type := "ERROR" } : SemanticError) ∈ (visit_ResourceNode st d).errors := by
  unfold visit_ResourceNode
  rw [if_pos h]
  exact List.mem_append_right _ (List.mem_singleton.mpr rfl)

/-- Helper: an error present mid-collection survives to the analysis
result. -/
theorem analyze_errors_mem_of_tail (pre : List Statement) (tail : List Statement)
    (e : SemanticError)
    (h : e ∈ (phase_collection ({} : AnalyzerState) pre).errors) :
    e ∈ (analyze (pre ++ tail)).errors := by
  have h1 : e ∈ (phase_collection ({} : AnalyzerState) (pre ++ tail)).errors := by
    have : phase_collection ({} : AnalyzerState) (pre ++ tail) =
        phase_collection (phase_collection {} pre) tail := List.foldl_append ..
    rw [this]
    obtain ⟨δ, hδ⟩ := phase_collection_errors_ext tail (phase_collection {} pre)
    rw [hδ]
    exact List.mem_append_left δ h
  obtain ⟨δ₂, h₂⟩ := phase_validation_errors_ext (phase_collection {} (pre ++ tail))
  have h3 : e ∈ (phase_validation (phase_collection {} (pre ++ tail))).errors := by
    rw [h₂]; exact List.mem_append_left δ₂ h1
  have h4 : e ∈ (phase_conflict_detection (phase_validation
      (phase_collection {} (pre ++ tail)))).errors := by
    rw [phase_conflict_detection_errors]; exact h3
  show e ∈ (phase_security_analysis _).errors
  rw [phase_security_analysis_errors]
  exact List.mem_append_left _ h4

/-- Helper: any recorded error makes the analysis fail. -/
theorem success_false_of_mem (prog : Program) (e : SemanticError)
    (h : e ∈ (analyze prog).errors) : (analyze prog).success = false := by
  have hne : (analyze prog).errors ≠ [] := List.ne_nil_of_mem h
  show (analyze prog).errors.isEmpty = false
  cases hE : (analyze prog).errors with
  | nil => exact absurd hE hne
  | cons a l => rfl

end SPL

namespace SPL

/-- Helper: the collection fold around a split program. -/
theorem phase_collection_split (l₁ l₂ : List Statement) (s₁ s₂ : Statement) :
    phase_collection ({} : AnalyzerState) (l₁ ++ s₁ :: l₂ ++ [s₂]) =
      visitStatement
        (phase_collection (visitStatement (phase_collection {} l₁) s₁) l₂) s₂ := by
  show List.foldl _ _ _ = _
  rw [List.foldl_append, List.foldl_cons, List.foldl_append, List.foldl_cons, List.foldl_nil]
  rfl

/-- C7: two same-kind definitions (role, user or resource) sharing one name
make the analyzer record the duplicate-definition diagnostic with severity
ERROR at the second definition's line, and the analysis result has
`success = false`. -/
theorem duplicate_definition_error
    (l₁ l₂ l₃ : List Statement) (s₁ s₂ : Statement)
    (k n : String) (line₁ line₂ : Nat)
    (h₁ : defOf s₁ = some (k, n, line₁)) (h₂ : defOf s₂ = some (k, n, line₂)) :
    ({ message := dupMessage k n
       line_number := some line₂
       error_type := "ERROR" } : SemanticError) ∈
        (analyze (l₁ ++ s₁ :: l₂ ++ s₂ :: l₃)).errors ∧
    (analyze (l₁ ++ s₁ :: l₂ ++ s₂ :: l₃)).success = false := by
  have hsplit : l₁ ++ s₁ :: l₂ ++ s₂ :: l₃ = (l₁ ++ s₁ :: l₂ ++ [s₂]) ++ l₃ := by
    simp
  rw [hsplit]
  have hmem : ({ message := dupMessage k n
                 line_number := some line₂
                 error_type := "ERROR" } : SemanticError) ∈
      (phase_collection ({} : AnalyzerState) (l₁ ++ s₁ :: l₂ ++ [s₂])).errors := by
    rw [phase_collection_split]
    cases s₁ with
    | policyRule p => simp [defOf] at h₁
    | roleDef d₁ =>
        cases s₂ with
        | policyRule p => simp [defOf] at h₂
        | roleDef d₂ =>
            simp only [defOf, Option.some.injEq, Prod.mk.injEq] at h₁ h₂
            obtain ⟨hk1, hn1, hl1⟩ := h₁
            obtain ⟨hk2, hn2, hl2⟩ := h₂
            subst hk1; subst hn2; subst hl2
            have hsomeA := visit_RoleNode_lookup_self (phase_collection {} l₁) d₁
            have hsomeB := (phase_collection_lookup_mono l₂
              (visitStatement (phase_collection {} l₁) (Statement.roleDef d₁)) d₁.name).1 hsomeA
            rw [hn1] at hsomeB
            exact visit_RoleNode_dup _ d₂ hsomeB
        | userDef d₂ =>
            simp only [defOf, Option.some.injEq, Prod.mk.injEq] at h₁ h₂
            exact absurd (h₁.1.trans h₂.1.symm) (by decide)
        | resourceDef d₂ =>
            simp only [defOf, Option.some.injEq, Prod.mk.injEq] at h₁ h₂
            exact absurd (h₁.1.trans h₂.1.symm) (by decide)
    | userDef d₁ =>
        cases s₂ with
        | policyRule p => simp [defOf] at h₂
        | roleDef d₂ =>
            simp only [defOf, Option.some.injEq, Prod.mk.injEq] at h₁ h₂
            exact absurd (h₁.1.trans h₂.1.symm) (by decide)
        | userDef d₂ =>
            simp only [defOf, Option.some.injEq, Prod.mk.injEq] at h₁ h₂
            obtain ⟨hk1, hn1, hl1⟩ := h₁
            obtain ⟨hk2, hn2, hl2⟩ := h₂
            subst hk1; subst hn2; subst hl2
            have hsomeA := visit_UserNode_lookup_self (phase_collection {} l₁) d₁
            have hsomeB := (phase_collection_lookup_mono l₂
              (visitStatement (phase_collection {} l₁) (Statement.userDef d₁)) d₁.name).2.1 hsomeA
            rw [hn1] at hsomeB
            exact visit_UserNode_dup _ d₂ hsomeB
        | resourceDef d₂ =>
            simp only [defOf, Option.some.injEq, Prod.mk.injEq] at h₁ h₂
            exact absurd (h₁.1.trans h₂.1.symm) (by decide)
    | resourceDef d₁ =>
        cases s₂ with
        | policyRule p => simp [defOf] at h₂
        | roleDef d₂ =>
            simp only [defOf, Option.some.injEq, Prod.mk.injEq] at h₁ h₂
            exact absurd (h₁.1.trans h₂.1.symm) (by decide)
        | userDef d₂ =>
            simp only [defOf, Option.some.injEq, Prod.mk.injEq] at h₁ h₂
            exact absurd (h₁.1.trans h₂.1.symm) (by decide)
        | resourceDef d₂ =>
            simp only [defOf, Option.some.injEq, Prod.mk.injEq] at h₁ h₂
            obtain ⟨hk1, hn1, hl1⟩ := h₁
            obtain ⟨hk2, hn2, hl2⟩ := h₂
            subst hk1; subst hn2; subst hl2
            have hsomeA := visit_ResourceNode_lookup_self (phase_collection {} l₁) d₁
            have hsomeB := (phase_collection_lookup_mono l₂
              (visitStatement (phase_collection {} l₁) (Statement.resourceDef d₁)) d₁.name).2.2 hsomeA
            rw [hn1] at hsomeB
            exact visit_ResourceNode_dup _ d₂ hsomeB
  have hfinal := analyze_errors_mem_of_tail (l₁ ++ s₁ :: l₂ ++ [s₂]) l₃ _ hmem
  exact ⟨hfinal, success_false_of_mem _ _ hfinal⟩

/-- C7 witness: two `Admin` role definitions (lines 1 and 7) produce the
duplicate-role ERROR at line 7 and fail the analysis. -/
theorem duplicate_definition_error_witness :
    ({ message := dupMessage "role" "Admin"
       line_number := some 7
       error_type := "ERROR" } : SemanticError) ∈ (analyze progC7).errors ∧
    (analyze progC7).success = false :=
  duplicate_definition_error [] [] []
    (Statement.roleDef { name := "Admin", properties := [], line_number := 1 })
    (Statement.roleDef { name := "Admin", properties := [], line_number := 7 })
    "role" "Admin" 1 7 rfl rfl

end SPL

namespace SPL

/-- C5 (counterexample): two same-kind policies on the same resource with
identical action sets (`ALLOW read ON DB` twice) produce *no* conflict —
`_policies_conflict` returns `False` for same-kind pairs, so the claimed
LOGICAL_CONTRADICTION (risk 60) is never emitted. -/
theorem same_kind_overlap_no_conflict :
    (analyze progC5same).conflicts = [] ∧
    (analyze progC5same).statistics.policies_defined = 2 ∧
    (analyze progC5same).success = true :=
  ⟨rfl, rfl, rfl⟩

/-- Helper: the inner conflict loop is a filterMap over the later
policies. -/
theorem conflictInner_spec (p : PolicyData) :
    ∀ (qs : List PolicyData) (acc : List PolicyConflict),
      conflictInner p acc qs =
        acc ++ qs.filterMap (fun q =>
          if policies_conflict p q then some (mkConflict p q) else none) := by
  intro qs
  induction qs with
  | nil => intro acc; simp [conflictInner]
  | cons q rest ih =>
      intro acc
      by_cases h : policies_conflict p q = true
      · simp [conflictInner, h, ih, List.filterMap_cons]
      · simp only [Bool.not_eq_true] at h
        simp [conflictInner, h, ih, List.filterMap_cons]

/-- Helper: the outer loop over one group is a filterMap over its ordered
pairs. -/
theorem conflictOuter_spec :
    ∀ (l : List PolicyData) (acc : List PolicyConflict),
      conflictOuter acc l =
        acc ++ (pairsOf l).filterMap (fun pq =>
          if policies_conflict pq.1 pq.2 then some (mkConflict pq.1 pq.2) else none) := by
  intro l
  induction l with
  | nil => intro acc; simp [conflictOuter, pairsOf]
  | cons p ps ih =>
      intro acc
      rw [conflictOuter, ih, conflictInner_spec]
      simp only [pairsOf, List.filterMap_append, List.filterMap_map]
      rw [List.append_assoc]
      rfl

/-- Helper: `_phase_conflict_detection` emits exactly one conflict per
conflicting ordered pair of each resource group, in loop order. -/
theorem conflictsOf_spec (policies : List PolicyData) :
    conflictsOf policies =
      (groupPairs policies).filterMap (fun pq =>
        if policies_conflict pq.1 pq.2 then some (mkConflict pq.1 pq.2) else none) := by
  unfold conflictsOf groupPairs
  generalize policies.foldl addToGroups [] = gs
  have : ∀ (gs : List (String × List PolicyData)) (acc : List PolicyConflict),
      gs.foldl (fun acc g => conflictOuter acc g.2) acc =
        acc ++ (gs.flatMap fun g => pairsOf g.2).filterMap (fun pq =>
          if policies_conflict pq.1 pq.2 then some (mkConflict pq.1 pq.2) else none) := by
    intro gs
    induction gs with
    | nil => intro acc; simp
    | cons g rest ih =>
        intro acc
        rw [List.foldl_cons, ih, conflictOuter_spec]
        simp [List.filterMap_append, List.append_assoc]
  rw [this]
  rfl

end SPL

namespace SPL

/-- Helper: lookup skips a prefix in which the key is absent. -/
theorem lookup_append_none {β : Type} (k : String) (l l' : List (String × β))
    (h : List.lookup k l = none) : List.lookup k (l ++ l') = List.lookup k l' := by
  induction l with
  | nil => rfl
  | cons a rest ih =>
      obtain ⟨k', v'⟩ := a
      by_cases hk : (k == k') = true
      · simp [List.lookup, hk] at h
      · have hk' : (k == k') = false := by simpa using hk
        simp only [List.lookup, hk'] at h
        rw [List.cons_append]
        simp only [List.lookup, hk']
        exact ih h

/-- Helper: a successful lookup exhibits a member of the association
list. -/
theorem mem_of_lookup {β : Type} (k : String) (l : List (String × β)) (v : β)
    (h : List.lookup k l = some v) : (k, v) ∈ l := by
  induction l with
  | nil => cases h
  | cons a rest ih =>
      obtain ⟨k', v'⟩ := a
      by_cases hk : (k == k') = true
      · have hkk : k = k' := by simpa using hk
        simp only [List.lookup, hk] at h
        have hv : v' = v := by simpa using h
        subst hkk; subst hv
        exact List.mem_cons_self _ _
      · have hk' : (k == k') = false := by simpa using hk
        simp only [List.lookup, hk'] at h
        exact List.mem_cons_of_mem _ (ih h)

/-- Helper: what one `resource_policies.setdefault`-style insertion does to
lookups. -/
theorem addToGroups_lookup (gs : List (String × List PolicyData)) (p : PolicyData)
    (r : String) :
    List.lookup r (addToGroups gs p) =
      if (p.resource == r) = true then
        some ((List.lookup r gs).getD [] ++ [p])
      else List.lookup r gs := by
  unfold addToGroups
  by_cases hs : (List.lookup p.resource gs).isSome = true
  · rw [if_pos hs]
    have hmap : ∀ (gs : List (String × List PolicyData)),
        List.lookup r (gs.map fun g => if g.1 == p.resource then (g.1, g.2 ++ [p]) else g) =
          (List.lookup r gs).map (fun l => if (r == p.resource) = true then l ++ [p] else l) := by
      intro gs
      induction gs with
      | nil => rfl
      | cons a rest ih =>
          obtain ⟨k', v'⟩ := a
          rw [List.map_cons]
          have hhead : (if ((k', v').1 == p.resource) = true
                then (((k', v') : String × List PolicyData).1, (k', v').2 ++ [p])
                else ((k', v') : String × List PolicyData)) =
              (k', if k' == p.resource then v' ++ [p] else v') := by
            by_cases hak : (k' == p.resource) = true
            · simp only [hak, if_true]
            · have hak' : (k' == p.resource) = false := by simpa using hak
              simp only [hak', Bool.false_eq_true, if_false]
          rw [hhead]
          by_cases hr : (r == k') = true
          · have hr' : r = k' := by simpa using hr
            subst hr'
            simp only [List.lookup, beq_self_eq_true]
            cases hak : r == p.resource <;> simp [hak]
          · have hr' : (r == k') = false := by simpa using hr
            simp only [List.lookup, hr', ih]
    rw [hmap]
    by_cases hpr : (p.resource == r) = true
    · have hpr' : p.resource = r := by simpa using hpr
      subst hpr'
      obtain ⟨l, hl⟩ := Option.isSome_iff_exists.mp hs
      simp [hl]
    · have hpr2 : (p.resource == r) = false := by simpa using hpr
      have hrp : (r == p.resource) = false := by
        by_cases h : r = p.resource
        · subst h; simp at hpr2
        · simpa using h
      rw [if_neg (by simp [hpr2])]
      cases List.lookup r gs with
      | none => rfl
      | some l => simp [hrp]
  · have hnone : List.lookup p.resource gs = none := by
      cases h : List.lookup p.resource gs with
      | none => rfl
      | some l => rw [h] at hs; simp at hs
    rw [if_neg hs]
    by_cases hpr : (p.resource == r) = true
    · have hpr' : p.resource = r := by simpa using hpr
      subst hpr'
      rw [lookup_append_none _ _ _ hnone, hnone]
      simp [List.lookup]
    · have hpr2 : (p.resource == r) = false := by simpa using hpr
      have hrp : (r == p.resource) = false := by
        by_cases h : r = p.resource
        · subst h; simp at hpr2
        · simpa using h
      rw [if_neg (by simp [hpr2])]
      cases h : List.lookup r gs with
      | none => rw [lookup_append_none _ _ _ h]; simp [List.lookup, hrp]
      | some l => exact lookup_append_left _ _ _ _ h

end SPL

namespace SPL

/-- Helper: lookups into the fully built `resource_policies` groups return
exactly the policies filtered by that resource, in program order. -/
theorem groups_lookup :
    ∀ (ps : List PolicyData) (gs : List (String × List PolicyData)) (r : String),
      List.lookup r (ps.foldl addToGroups gs) =
        if ((List.lookup r gs).isSome || ps.any fun p => p.resource == r) then
          some ((List.lookup r gs).getD [] ++ ps.filter fun p => p.resource == r)
        else none := by
  intro ps
  induction ps with
  | nil =>
      intro gs r
      cases h : List.lookup r gs with
      | none => simp [h]
      | some l => simp [h]
  | cons p ps ih =>
      intro gs r
      rw [List.foldl_cons, ih]
      by_cases hpr : (p.resource == r) = true
      · have h1 : List.lookup r (addToGroups gs p) =
            some ((List.lookup r gs).getD [] ++ [p]) := by
          rw [addToGroups_lookup, if_pos hpr]
        rw [h1]
        simp [List.filter_cons, List.any_cons, hpr, List.append_assoc]
      · have hpr' : (p.resource == r) = false := by simpa using hpr
        have h1 : List.lookup r (addToGroups gs p) = List.lookup r gs := by
          rw [addToGroups_lookup, if_neg (by simp [hpr'])]
        rw [h1]
        simp only [List.filter_cons, List.any_cons, hpr', Bool.false_eq_true, if_false,
          Bool.false_or]

/-- Helper: the ordered-pair list of a list that splits around `p` then `q`
contains the pair `(p, q)`. -/
theorem pairsOf_mem_split {α : Type} (A B C : List α) (p q : α) :
    (p, q) ∈ pairsOf (A ++ p :: B ++ q :: C) := by
  induction A with
  | nil =>
      rw [List.nil_append]
      show (p, q) ∈ (B ++ q :: C).map (fun y => (p, y)) ++ pairsOf (B ++ q :: C)
      refine List.mem_append_left _ ?_
      exact List.mem_map_of_mem _ (List.mem_append_right _ (List.mem_cons_self _ _))
  | cons a A ih =>
      rw [List.cons_append]
      show (p, q) ∈ (A ++ p :: B ++ q :: C).map (fun y => (a, y)) ++
        pairsOf (A ++ p :: B ++ q :: C)
      exact List.mem_append_right _ ih

/-- Helper: two policies on the same resource that appear (in order) in the
collected policy list form one of the ordered pairs the conflict loops
visit. -/
theorem groupPairs_mem_split (l₁ l₂ l₃ : List PolicyData) (p q : PolicyData)
    (hres : p.resource = q.resource) :
    (p, q) ∈ groupPairs (l₁ ++ p :: l₂ ++ q :: l₃) := by
  have hp : (p.resource == p.resource) = true := beq_self_eq_true _
  have hq : (q.resource == p.resource) = true := by rw [← hres]; exact beq_self_eq_true _
  have hany : ((l₁ ++ p :: l₂ ++ q :: l₃).any fun x => x.resource == p.resource) = true := by
    simp [List.any_append, List.any_cons, hp]
  have hlook : List.lookup p.resource ((l₁ ++ p :: l₂ ++ q :: l₃).foldl addToGroups []) =
      some ((l₁ ++ p :: l₂ ++ q :: l₃).filter fun x => x.resource == p.resource) := by
    rw [groups_lookup, if_pos (by simp [hany])]
    rfl
  have hmem : (p.resource, (l₁ ++ p :: l₂ ++ q :: l₃).filter fun x => x.resource == p.resource) ∈
      (l₁ ++ p :: l₂ ++ q :: l₃).foldl addToGroups [] :=
    mem_of_lookup _ _ _ hlook
  have hfilter : ((l₁ ++ p :: l₂ ++ q :: l₃).filter fun x => x.resource == p.resource) =
      (l₁.filter fun x => x.resource == p.resource) ++
        p :: (l₂.filter fun x => x.resource == p.resource) ++
          q :: (l₃.filter fun x => x.resource == p.resource) := by
    simp [List.filter_append, List.filter_cons, hp, hq]
  refine List.mem_flatMap.mpr ⟨_, hmem, ?_⟩
  rw [hfilter]
  exact pairsOf_mem_split _ _ _ p q

/-- Helper: same-kind pairs never conflict. -/
theorem policies_conflict_same_kind (p q : PolicyData)
    (h : p.policy_type = q.policy_type) : policies_conflict p q = false := by
  have hb : (p.policy_type != q.policy_type) = false := by simp [h]
  unfold policies_conflict
  rw [hb]
  split
  · rfl
  · split
    · rfl
    · simp

end SPL

namespace SPL

/-- C5 (amended): conflict detection emits exactly one conflict per
conflicting ordered pair within each resource group; a pair conflicts only
when its kinds differ (same-kind pairs never conflict, so the
LOGICAL_CONTRADICTION branch is unreachable); a differing-kind conflicting
pair is classified PRIVILEGE_ESCALATION with risk 95 when `delete` is among
either policy's actions and ALLOW_DENY_CONFLICT with risk 85 otherwise; and
any in-order same-resource conflicting pair of the collected policy list
yields its conflict. -/
theorem conflict_detection_characterization :
    (∀ policies : List PolicyData,
      conflictsOf policies =
        (groupPairs policies).filterMap (fun pq =>
          if policies_conflict pq.1 pq.2 then some (mkConflict pq.1 pq.2) else none)) ∧
    (∀ p q : PolicyData, p.policy_type = q.policy_type →
      policies_conflict p q = false) ∧
    (∀ p q : PolicyData, policies_conflict p q = true →
      p.resource = q.resource ∧
      p.policy_type ≠ q.policy_type ∧
      (mkConflict p q).conflict_type =
        (if p.actions.contains "delete" || q.actions.contains "delete"
          then "PRIVILEGE_ESCALATION" else "ALLOW_DENY_CONFLICT") ∧
      (mkConflict p q).risk_score =
        (if p.actions.contains "delete" || q.actions.contains "delete"
          then 95 else 85)) ∧
    (∀ (l₁ l₂ l₃ : List PolicyData) (p q : PolicyData),
      p.resource = q.resource → policies_conflict p q = true →
      mkConflict p q ∈ conflictsOf (l₁ ++ p :: l₂ ++ q :: l₃)) := by
  have hclass : ∀ p q : PolicyData, policies_conflict p q = true →
      p.resource = q.resource ∧
      p.policy_type ≠ q.policy_type ∧
      (mkConflict p q).conflict_type =
        (if p.actions.contains "delete" || q.actions.contains "delete"
          then "PRIVILEGE_ESCALATION" else "ALLOW_DENY_CONFLICT") ∧
      (mkConflict p q).risk_score =
        (if p.actions.contains "delete" || q.actions.contains "delete"
          then 95 else 85) := by
    intro p q h
    unfold policies_conflict at h
    by_cases h1 : (p.resource != q.resource) = true
    · rw [if_pos h1] at h; cases h
    rw [if_neg h1] at h
    by_cases h2 : (!p.actions.any fun a => q.actions.contains a) = true
    · rw [if_pos h2] at h; cases h
    rw [if_neg h2] at h
    by_cases h3 : (p.policy_type != q.policy_type) = true
    · have hres : p.resource = q.resource := by
        simpa using h1
      have hne : p.policy_type ≠ q.policy_type := by
        simpa using h3
      have hct : (mkConflict p q).conflict_type =
          (if p.actions.contains "delete" || q.actions.contains "delete"
            then "PRIVILEGE_ESCALATION" else "ALLOW_DENY_CONFLICT") := by
        show determine_conflict_type p q = _
        unfold determine_conflict_type
        rw [if_pos h3]
      refine ⟨hres, hne, hct, ?_⟩
      show calculate_risk_score (determine_conflict_type p q) = _
      unfold determine_conflict_type
      rw [if_pos h3]
      by_cases hd : (p.actions.contains "delete" || q.actions.contains "delete") = true
      · rw [if_pos hd, if_pos hd]; rfl
      · rw [if_neg hd, if_neg hd]; rfl
    · rw [if_neg h3] at h; cases h
  refine ⟨?_, ?_, hclass, ?_⟩
  · exact conflictsOf_spec
  · exact policies_conflict_same_kind
  · intro l₁ l₂ l₃ p q hres hconf
    rw [conflictsOf_spec]
    refine List.mem_filterMap.mpr ⟨(p, q), groupPairs_mem_split l₁ l₂ l₃ p q hres, ?_⟩
    rw [if_pos (by simpa using hconf)]

/-- C5 witness: Scenario B's ALLOW/DENY pair on `DB` (no `delete`) yields
its ALLOW_DENY_CONFLICT entry in `conflictsOf`. -/
theorem conflict_detection_characterization_witness :
    mkConflict policyB1 policyB2 ∈
      conflictsOf ([] ++ policyB1 :: [] ++ policyB2 :: []) :=
  conflict_detection_characterization.2.2.2 [] [] [] policyB1 policyB2 rfl rfl

end SPL

namespace SPL

/-- Helper: `str.replace` leaves a non-`*` head in place. -/
theorem starExpand_cons_ne (c : Char) (h : c ≠ '*') (cs : List Char) :
    starExpand (c :: cs) = c :: starExpand cs := by
  rw [starExpand.eq_def]
  split
  · simp_all
  · simp_all
  · rename_i c2 cs2 hne heq
    cases heq
    rfl

/-- Helper: `atomsOf` on a non-`*` head. -/
theorem atomsOf_cons_ne (c : Char) (h : c ≠ '*') (cs : List Char) :
    atomsOf (c :: cs) = (reBaseOf c, false) :: atomsOf cs := by
  rw [atomsOf.eq_def]
  split
  · simp_all
  · simp_all
  · rename_i c2 cs2 hne heq
    cases heq
    rfl

/-- Helper: `str.replace('*', '.*')` never emits `*` first. -/
theorem starExpand_ne_star : ∀ (cs ys : List Char), starExpand cs ≠ '*' :: ys := by
  intro cs ys h
  match cs with
  | [] => cases h
  | '*' :: cs =>
      rw [show starExpand ('*' :: cs) = '.' :: '*' :: starExpand cs from rfl] at h
      cases h
  | c :: cs =>
      by_cases hc : c = '*'
      · subst hc
        rw [show starExpand ('*' :: cs) = '.' :: '*' :: starExpand cs from rfl] at h
        cases h
      · rw [starExpand_cons_ne c hc cs] at h
        cases h
        exact hc rfl

/-- Helper: compiling an ordinary (unstarred, non-meta) leading character. -/
theorem reCompile_cons_ne (c : Char) (xs : List Char) (hc : c ≠ '*')
    (hx : ∀ ys, xs ≠ '*' :: ys) (hm : isReMeta c = false) :
    reCompile (c :: xs) = (reCompile xs).map (fun r => (reBaseOf c, false) :: r) := by
  have hcb : (c == '*') = false := by simpa using hc
  rw [reCompile.eq_def]
  show (if (c == '*') = true then none
        else if isReMeta c = true then none
        else match xs with
          | [] => some [(reBaseOf c, false)]
          | d :: cs' =>
            if (d == '*') = true then Option.map (fun r => (reBaseOf c, true) :: r) (reCompile cs')
            else Option.map (fun r => (reBaseOf c, false) :: r) (reCompile (d :: cs'))) =
      Option.map (fun r => (reBaseOf c, false) :: r) (reCompile xs)
  rw [if_neg (by simp [hcb]), if_neg (by simp [hm])]
  split
  · rfl
  · rename_i d cs'
    have hd : (d == '*') = false := by
      by_cases h : d = '*'
      · subst h; exact absurd rfl (hx _)
      · simpa using h
    rw [if_neg (by simp [hd])]

/-- Helper: one step of the glob matcher on a non-`*` pattern head. -/
theorem globMatchGo_cons_ne (fuel : Nat) (c : Char) (ps : List Char) (hc : c ≠ '*')
    (ts : List Char) :
    globMatchGo (fuel + 1) (c :: ps) ts =
      (match ts with
       | [] => false
       | t :: ts' => c == t && globMatchGo fuel ps ts') := by
  rw [globMatchGo.eq_def]
  cases ts with
  | nil => split <;> simp_all
  | cons t ts' => split <;> simp_all

/-- Helper: `atomsOf` preserves length (so the two matchers' fuels
coincide). -/
theorem atomsOf_length : ∀ cs : List Char, (atomsOf cs).length = cs.length := by
  intro cs
  induction cs with
  | nil => rfl
  | cons c cs ih =>
      by_cases hc : c = '*'
      · subst hc
        rw [show atomsOf ('*' :: cs) = (ReBase.any, true) :: atomsOf cs from rfl]
        simp [ih]
      · rw [atomsOf_cons_ne c hc cs]
        simp [ih]

/-- Helper: on glob-safe patterns `re.compile` of the `*`-expanded string
succeeds and yields exactly the glob atoms. -/
theorem reCompile_starExpand : ∀ cs : List Char, cs.all isGlobSafe = true →
    reCompile (starExpand cs) = some (atomsOf cs) := by
  intro cs
  induction cs with
  | nil => intro h; rfl
  | cons c cs ih =>
      intro h
      rw [List.all_cons, Bool.and_eq_true] at h
      obtain ⟨hc, hcs⟩ := h
      by_cases hstar : c = '*'
      · subst hstar
        rw [show starExpand ('*' :: cs) = '.' :: '*' :: starExpand cs from rfl]
        rw [show reCompile ('.' :: '*' :: starExpand cs) =
          (reCompile (starExpand cs)).map (fun r => (ReBase.any, true) :: r) from rfl]
        rw [ih hcs]
        rfl
      · have hm : isReMeta c = false := by
          rw [isGlobSafe, Bool.and_eq_true] at hc
          simpa using hc.1
        rw [starExpand_cons_ne c hstar cs]
        rw [reCompile_cons_ne c (starExpand cs) hstar (starExpand_ne_star cs) hm]
        rw [ih hcs, atomsOf_cons_ne c hstar cs]
        rfl

/-- Helper: on glob-safe patterns and newline-free targets, the anchored
regex matcher and the glob matcher agree step for step. -/
theorem reAcceptGo_glob : ∀ (fuel : Nat) (cs ts : List Char),
    cs.all isGlobSafe = true → '\n' ∉ ts →
    reAcceptGo fuel (atomsOf cs) ts = globMatchGo fuel cs ts := by
  intro fuel
  induction fuel with
  | zero => intro cs ts _ _; rfl
  | succ fuel ih =>
      intro cs ts hall hnl
      cases cs with
      | nil =>
          have hne : ts ≠ ['\n'] := by
            intro h; subst h; exact hnl (List.mem_singleton.mpr rfl)
          have hbe : (ts == ['\n']) = false := beq_eq_false_iff_ne.mpr hne
          show (ts.isEmpty || (ts == ['\n'])) = ts.isEmpty
          rw [hbe, Bool.or_false]
      | cons c cs' =>
          rw [List.all_cons, Bool.and_eq_true] at hall
          obtain ⟨hc, hcs⟩ := hall
          by_cases hstar : c = '*'
          · subst hstar
            cases ts with
            | nil =>
                show (reAcceptGo fuel (atomsOf cs') [] || false) =
                  (globMatchGo fuel cs' [] || false)
                rw [ih cs' [] hcs hnl]
            | cons t ts2 =>
                have hnt : (t != '\n') = true := by
                  simp only [bne_iff_ne, ne_eq]
                  intro h; subst h; exact hnl (List.mem_cons_self _ _)
                have hnl2 : '\n' ∉ ts2 := fun h => hnl (List.mem_cons_of_mem _ h)
                show (reAcceptGo fuel (atomsOf cs') (t :: ts2) ||
                    (reBaseMatch ReBase.any t &&
                      reAcceptGo fuel ((ReBase.any, true) :: atomsOf cs') ts2)) =
                  (globMatchGo fuel cs' (t :: ts2) || globMatchGo fuel ('*' :: cs') ts2)
                rw [ih cs' (t :: ts2) hcs hnl,
                  show reBaseMatch ReBase.any t = (t != '\n') from rfl, hnt, Bool.true_and,
                  show ((ReBase.any, true) :: atomsOf cs') = atomsOf ('*' :: cs') from rfl,
                  ih ('*' :: cs') ts2 (by simp [List.all_cons, hc, hcs]) hnl2]
          · have hdot : (c == '.') = false := by
              rw [isGlobSafe, Bool.and_eq_true] at hc
              simpa using hc.2
            have hlit : reBaseOf c = ReBase.lit c := by
              unfold reBaseOf
              rw [if_neg (by simp [hdot])]
            rw [atomsOf_cons_ne c hstar cs', hlit, globMatchGo_cons_ne fuel c cs' hstar ts]
            cases ts with
            | nil => rfl
            | cons t ts2 =>
                have hnl2 : '\n' ∉ ts2 := fun h => hnl (List.mem_cons_of_mem _ h)
                show (reBaseMatch (ReBase.lit c) t && reAcceptGo fuel (atomsOf cs') ts2) =
                  (c == t && globMatchGo fuel cs' ts2)
                rw [show reBaseMatch (ReBase.lit c) t = (c == t) from rfl,
                  ih cs' ts2 hcs hnl2]

/-- Helper: `_matches_resource` agrees with the glob reading on glob-safe
patterns and newline-free targets. -/
theorem matches_resource_eq_spec (p t : String)
    (hs : p.data.all isGlobSafe = true) (hn : '\n' ∉ t.data) :
    matches_resource p t = spec_matches_resource p t := by
  unfold matches_resource spec_matches_resource
  by_cases he : (p == t) = true
  · rw [if_pos he, he, Bool.true_or]
  · have he' : (p == t) = false := by simpa using he
    rw [if_neg (by simp [he']), he', Bool.false_or]
    rw [reCompile_starExpand p.data hs]
    show reAccept (atomsOf p.data) t.data = globMatch p.data t.data
    unfold reAccept globMatch
    rw [atomsOf_length]
    exact reAcceptGo_glob _ _ _ hs hn

/-- Helper: `_matches_action` is exactly wildcard-or-membership. -/
theorem matches_action_eq_spec (acts : List String) (a : String) :
    matches_action acts a = (acts.contains "*" || acts.contains a) := by
  unfold matches_action
  by_cases h : acts.contains "*" = true
  · rw [if_pos h, h, Bool.true_or]
  · have h' : acts.contains "*" = false := by simpa using h
    rw [if_neg h, h', Bool.false_or]

/-- C9 (counterexample): the spec's glob reading is wrong for patterns with
regex metacharacters other than `*`: the resource spec `a.b` matches the
target `axb` in the engine (the `.` is a regex any-character), while as a
glob (exact match or `*`-expansion) it does not. -/
theorem matches_resource_dot_metachar :
    matches_resource "a.b" "axb" = true ∧
    spec_matches_resource "a.b" "axb" = false :=
  ⟨rfl, rfl⟩

/-- C9 (amended): restricted to glob-safe resource specs (no regex
metacharacters, no `.`) and newline-free targets, `_matches_resource` is
exactly equal-or-glob-match; and `_matches_action` is exactly
wildcard-or-membership, unconditionally. -/
theorem resource_action_matching_glob :
    (∀ p t : String, p.data.all isGlobSafe = true → '\n' ∉ t.data →
      matches_resource p t = spec_matches_resource p t) ∧
    (∀ (acts : List String) (a : String),
      matches_action acts a = (acts.contains "*" || acts.contains a)) :=
  ⟨fun p t hs hn => matches_resource_eq_spec p t hs hn, matches_action_eq_spec⟩

/-- C9 witness: the equivalence instantiated at the starred spec `a*b`
against target `aXYb` and at a concrete action list. -/
theorem resource_action_matching_glob_witness :
    matches_resource "a*b" "aXYb" = spec_matches_resource "a*b" "aXYb" ∧
    matches_action ["read"] "read" =
      (["read"].contains "*" || ["read"].contains "read") :=
  ⟨resource_action_matching_glob.1 "a*b" "aXYb" rfl (by decide),
   resource_action_matching_glob.2 ["read"] "read"⟩

end SPL
